import Mathlib

/-!
# Farming simulator core: shallow embedding and verification

This file embeds the simulation core of the farming-simulator repository
(TypeScript sources under `src/`) as executable Lean definitions and proves
or refutes the specification's testable properties against them.

Conventions of the embedding:
* JavaScript numbers that only ever hold integers (money, prices, days,
  growth stages, inventory counts) are modelled as `Int`; genuinely
  fractional quantities (random draws, multipliers, accumulators) as `Rat`.
* `Math.random()` results are passed in as explicit parameters `r` with
  `0 ≤ r < 1`.
* `Math.floor` is `Int.floor`; `Math.round x` is `⌊x + 1/2⌋` (`jsRound`).
* The JavaScript `x || d` defaulting idiom on numbers is `jsOr` /
  `jsOrRat` (it yields `d` exactly when `x = 0`, since `0` is falsy).
* ES `Map`s are association lists (`List (κ × α)`) with the `ESMap`
  operations below; an ES `Map` never holds two entries with the same
  key, which the well-formedness predicates of the round-trip theorems
  record as `Nodup` of the key list.
* The spatial registries key cells by the string
  `` `${position.x}_${position.z}` ``; distinct numeric pairs format to
  distinct strings, so the pair `(x, z)` itself serves as the key.
* Rendering-only data (meshes, materials, textures) is dropped; all
  simulation-relevant fields are kept.

The file is organised as definitions first, then the theorems.
-/

/-! ## Basic enumerations and numeric helpers -/

/-- The four seasons, in the cyclic order used by `TimeSystem.advanceSeason`
and `CropSystem.getSeasonDifference`: Spring, Summer, Fall, Winter. -/
inductive Season where
  | Spring
  | Summer
  | Fall
  | Winter
deriving DecidableEq, Repr

/-- Index of a season in the `['Spring', 'Summer', 'Fall', 'Winter']` array
(`Array.indexOf` in the source). -/
def Season.idx : Season → ℤ
  | .Spring => 0
  | .Summer => 1
  | .Fall => 2
  | .Winter => 3

/-- Weather types of `WeatherSystem`. -/
inductive WeatherType where
  | Sunny
  | Cloudy
  | Rainy
  | Stormy
deriving DecidableEq, Repr

/-- Crop types of `CropSystem` (`export type CropType`). -/
inductive CropType where
  | wheat
  | corn
  | potato
  | carrot
deriving DecidableEq, Repr

/-- The four crop types in the iteration order of the source's literal
objects (`Object.keys` order). -/
def cropTypesList : List CropType :=
  [CropType.wheat, CropType.corn, CropType.potato, CropType.carrot]

/-- Animal types of `LivestockSystem` (`export type AnimalType`). -/
inductive AnimalType where
  | chicken
  | cow
  | pig
  | sheep
deriving DecidableEq, Repr

/-- Field preparation states of `FieldStateSystem`
(`export type FieldState`). -/
inductive FieldState where
  | untilled
  | tilled
  | planted
  | growing
  | mature
  | harvested
  | stubble
deriving DecidableEq, Repr

/-- A Babylon `Vector3` restricted to its numeric payload. -/
structure Vec3 where
  x : ℚ
  y : ℚ
  z : ℚ
deriving DecidableEq, Repr

/-- JavaScript `Math.round` on a rational: `⌊x + 1/2⌋`. -/
def jsRound (q : ℚ) : ℤ := ⌊q + 1/2⌋

/-- JavaScript numeric `x || d`: `d` when `x` is falsy (i.e. `0`), else `x`. -/
def jsOr (x d : ℤ) : ℤ := if x = 0 then d else x

/-- JavaScript numeric `x || d` on fractional values. -/
def jsOrRat (x d : ℚ) : ℚ := if x = 0 then d else x

/-! ## ES `Map` operations

The registries (`crops`, `fields`, `animals`, …) are ES `Map`s.  An
association list together with the operations below embeds exactly the
`get` / `set` / `delete` / `values` interface the source uses; `set`
keeps an existing key's position and appends a fresh key, matching the
insertion-order iteration of ES `Map`s. -/

namespace ESMap

variable {κ α : Type} [DecidableEq κ]

/-- `map.get(k)`. -/
def get (m : List (κ × α)) (k : κ) : Option α :=
  (m.find? (fun e => e.1 = k)).map (fun e => e.2)

/-- `map.set(k, v)`: overwrite in place when present, else append. -/
def set (m : List (κ × α)) (k : κ) (v : α) : List (κ × α) :=
  if (m.find? (fun e => e.1 = k)).isSome then
    m.map (fun e => if e.1 = k then (k, v) else e)
  else m ++ [(k, v)]

/-- `map.delete(k)`: on the duplicate-free key lists an ES `Map`
maintains, deleting the key is `filter`. -/
def del (m : List (κ × α)) (k : κ) : List (κ × α) :=
  m.filter (fun e => ¬ e.1 = k)

/-- `map.values()` / `Array.from(map.values())`, in insertion order. -/
def values (m : List (κ × α)) : List α := m.map (fun e => e.2)

/-- The keys of the map, in order. -/
def keys (m : List (κ × α)) : List κ := m.map (fun e => e.1)

end ESMap

/-! ## TimeSystem

Embeds `src/systems/TimeSystem.ts`. The in-game clock is
`{hour, minute, day, season, year}`; `update(deltaTime)` accumulates real
seconds, converts them to whole game minutes and feeds them to the
`addMinutes` carry loop. -/

/-- `TimeData` of `TimeSystem.ts`. -/
structure TimeData where
  hour : ℕ
  minute : ℕ
  day : ℕ
  season : Season
  year : ℕ
deriving DecidableEq, Repr

namespace TimeSystem

/-- `getDaysInSeason()` — constant 30. -/
def daysInSeason : ℕ := 30

/-- `seasons[(currentIndex + 1) % seasons.length]`: the successor in the
cyclic array `['Spring', 'Summer', 'Fall', 'Winter']`. -/
def nextSeason : Season → Season
  | .Spring => .Summer
  | .Summer => .Fall
  | .Fall => .Winter
  | .Winter => .Spring

/-- `advanceSeason()`: step to the next season in the array order;
entering Spring (i.e. wrapping from Winter) increments the year. -/
def advanceSeason (t : TimeData) : TimeData :=
  { t with
    season := nextSeason t.season
    year :=
      if nextSeason t.season = Season.Spring then t.year + 1 else t.year }

/-- One iteration of the `while (minute >= 60)` loop body of `addMinutes`:
carry 60 minutes into the hour, then possibly the hour into the day and
the day into the season. -/
def carryStep (t : TimeData) : TimeData :=
  let t1 := { t with minute := t.minute - 60, hour := t.hour + 1 }
  if 24 ≤ t1.hour then
    let t2 := { t1 with hour := 0, day := t1.day + 1 }
    if daysInSeason < t2.day then advanceSeason { t2 with day := 1 } else t2
  else t1

/-- The `while (minute >= 60)` loop, driven by explicit fuel.  Each
iteration removes 60 minutes, so any `fuel ≥ minute` drains the loop. -/
def normalizeAux : ℕ → TimeData → TimeData
  | 0, t => t
  | fuel + 1, t => if 60 ≤ t.minute then normalizeAux fuel (carryStep t) else t

/-- `addMinutes(minutes)`: add to the minute field, then run the carry
loop. -/
def addMinutes (t : TimeData) (m : ℕ) : TimeData :=
  normalizeAux (t.minute + m) { t with minute := t.minute + m }

/-- State of the `TimeSystem` class: the clock plus the time-scale and the
fractional real-time accumulator. -/
structure State where
  timeData : TimeData
  timeScale : ℚ
  realTimeAccumulator : ℚ
deriving DecidableEq, Repr

/-- `update(deltaTime)`: accumulate real seconds, convert whole game
minutes at `timeScale / 60` game-minutes per second, feed them to
`addMinutes`, and keep the fractional remainder. -/
def update (s : State) (deltaTime : ℚ) : State :=
  let acc := s.realTimeAccumulator + deltaTime
  let gameMinutesPerSecond := s.timeScale / 60
  let minutesToAdd : ℤ := ⌊acc * gameMinutesPerSecond⌋
  if 0 < minutesToAdd then
    { s with
      realTimeAccumulator := acc - (minutesToAdd : ℚ) / gameMinutesPerSecond
      timeData := addMinutes s.timeData minutesToAdd.toNat }
  else
    { s with realTimeAccumulator := acc }

end TimeSystem

/-- The clock bounds stated in the spec's data model:
minute 0–59, hour 0–23, day 1–30, year ≥ 1. -/
def TimeData.wf (t : TimeData) : Prop :=
  t.minute < 60 ∧ t.hour < 24 ∧ 1 ≤ t.day ∧ t.day ≤ 30 ∧ 1 ≤ t.year

instance (t : TimeData) : Decidable t.wf := by unfold TimeData.wf; infer_instance

/-- Total game minutes represented by a clock state, in the canonical
positional encoding: years of 4 seasons, seasons of 30 days, days of 24
hours, hours of 60 minutes.  A well-formed clock state is uniquely
determined by this value, so preserving it pins down every carry rule
(minute→hour→day→season, and the Winter→Spring wrap into the year). -/
def TimeData.totalMinutes (t : TimeData) : ℤ :=
  (((t.year - 1 : ℤ) * 4 + t.season.idx) * 30 + (t.day - 1 : ℤ)) * 1440
    + (t.hour : ℤ) * 60 + (t.minute : ℤ)

/-- The carry-relevant bounds on everything except the minute (which is
temporarily out of range inside the loop). -/
def TimeSystem.wfCore (t : TimeData) : Prop :=
  t.hour < 24 ∧ 1 ≤ t.day ∧ t.day ≤ 30 ∧ 1 ≤ t.year

/-- Absolute day index of a clock state (year, season, day) in the
120-day year grid: used to express "as the Clock's in-game time
advances". -/
def clockAbsDay (year : ℤ) (season : Season) (day : ℤ) : ℤ :=
  (year - 1) * 120 + season.idx * 30 + day

/-! ## CropSystem

Embeds `src/systems/CropSystem.ts`: the per-cell crop registry, planting,
harvesting, and the growth-stage computation driven by the clock and the
weather. -/

/-- `CropData` of `CropSystem.ts` (mesh dropped).  `plantedSeason` is kept
as a `Season`; the source stores the season string. -/
structure CropData where
  type : CropType
  plantedDay : ℤ
  plantedSeason : Season
  growthStage : ℤ
  position : Vec3
deriving DecidableEq, Repr

/-- `CropInfo` of `CropSystem.ts` (name and color dropped). -/
structure CropInfo where
  growthTime : ℚ
  seedPrice : ℤ
  sellPrice : ℤ
deriving DecidableEq, Repr

namespace CropSystem

/-- The `cropInfo` table. -/
def cropInfo : CropType → CropInfo
  | .wheat => ⟨5, 2, 8⟩
  | .corn => ⟨7, 3, 12⟩
  | .potato => ⟨6, 4, 10⟩
  | .carrot => ⟨4, 1, 6⟩

/-- The registry key `` `${position.x}_${position.z}` ``. -/
def cropKey (p : Vec3) : ℚ × ℚ := (p.x, p.z)

/-- The crop registry: `crops: Map<string, CropData>`. -/
abbrev CropsMap := List ((ℚ × ℚ) × CropData)

/-- `getCropAt(position)`. -/
def getCropAt (crops : CropsMap) (p : Vec3) : Option CropData :=
  ESMap.get crops (cropKey p)

/-- `getAllCrops()`: the registry's values in insertion order. -/
def getAllCrops (crops : CropsMap) : List CropData := ESMap.values crops

/-- `getWeatherGrowthMultiplier`. -/
def getWeatherGrowthMultiplier : WeatherType → ℚ
  | .Rainy => 13/10
  | .Stormy => 7/10
  | .Cloudy => 11/10
  | .Sunny => 1

/-- `getWeatherYieldMultiplier`. -/
def getWeatherYieldMultiplier : WeatherType → ℚ
  | .Rainy => 12/10
  | .Stormy => 8/10
  | .Cloudy => 105/100
  | .Sunny => 1

/-- `getSeasonDifference(plantedSeason, currentSeason)`. -/
def getSeasonDifference (plantedSeason currentSeason : Season) : ℤ :=
  if plantedSeason.idx ≤ currentSeason.idx then
    currentSeason.idx - plantedSeason.idx
  else
    4 - plantedSeason.idx + currentSeason.idx

/-- `calculateDaysSincePlanted(crop, currentTime)`, as a function of the
planting data and the current clock day/season. -/
def calculateDaysSincePlanted (plantedDay : ℤ) (plantedSeason : Season)
    (currentDay : ℤ) (currentSeason : Season) : ℤ :=
  if plantedSeason = currentSeason then
    currentDay - plantedDay
  else
    getSeasonDifference plantedSeason currentSeason * 30
      + currentDay - plantedDay

/-- The quartile bucketing of `updateCropGrowth`: growth progress below
1/4, 1/2, 3/4 gives stages 0, 1, 2, anything else stage 3. -/
def stageOfProgress (growthProgress : ℚ) : ℤ :=
  if growthProgress < 1/4 then 0
  else if growthProgress < 1/2 then 1
  else if growthProgress < 3/4 then 2
  else 3

/-- The growth stage recomputed by `updateCropGrowth` for a crop of type
`ct` planted on `plantedDay`/`plantedSeason`, at clock day/season
`currentDay`/`currentSeason`, under weather `w`:
`effectiveDays = daysSincePlanted × weatherMultiplier`,
`growthProgress = effectiveDays / growthTime`, quartile-bucketed. -/
def computedGrowthStage (ct : CropType) (plantedDay : ℤ)
    (plantedSeason : Season) (currentDay : ℤ) (currentSeason : Season)
    (w : WeatherType) : ℤ :=
  let daysSincePlanted :=
    calculateDaysSincePlanted plantedDay plantedSeason currentDay
      currentSeason
  let effectiveDays := (daysSincePlanted : ℚ) * getWeatherGrowthMultiplier w
  stageOfProgress (effectiveDays / (cropInfo ct).growthTime)

/-- `updateCropGrowth(crop)`: overwrite the stored stage with the
recomputed one (the source assigns only when it differs, which has the
same result). -/
def updateCropGrowth (crop : CropData) (currentDay : ℤ)
    (currentSeason : Season) (w : WeatherType) : CropData :=
  { crop with
    growthStage :=
      computedGrowthStage crop.type crop.plantedDay crop.plantedSeason
        currentDay currentSeason w }

/-- `plantCrop(cropType, position)` given the
`farmExpansionSystem.isPositionOnOwnedLand` test result: fails if the
position is not on owned land or a crop already occupies the key;
otherwise records the planting with `growthStage = 0`. -/
def plantCrop (onOwnedLand : Bool) (crops : CropsMap) (ct : CropType)
    (p : Vec3) (currentDay : ℤ) (currentSeason : Season) :
    Bool × CropsMap :=
  if ¬ onOwnedLand then (false, crops)
  else if (ESMap.get crops (cropKey p)).isSome then (false, crops)
  else
    (true,
      ESMap.set crops (cropKey p)
        { type := ct, plantedDay := currentDay,
          plantedSeason := currentSeason, growthStage := 0,
          position := p })

/-- `harvestCrop(position)`.  `r` is the `Math.random()` draw for the base
amount; `equipmentYield` is `getEquipmentEffects().cropYield || 1.0`;
`attachmentEfficiency` is the mounted attachment's `efficiency || 1.0`;
`w` the current weather.  Returns the harvest result (if any) and the
updated registry. -/
def harvestCrop (crops : CropsMap) (p : Vec3) (equipmentYield : ℚ)
    (attachmentEfficiency : ℚ) (w : WeatherType) (r : ℚ) :
    Option (CropType × ℤ) × CropsMap :=
  match ESMap.get crops (cropKey p) with
  | none => (none, crops)
  | some crop =>
    if crop.growthStage < 3 then (none, crops)
    else
      let baseAmount : ℤ := ⌊r * 3⌋ + 2
      let totalMultiplier :=
        equipmentYield * attachmentEfficiency * getWeatherYieldMultiplier w
      let modifiedAmount : ℤ := ⌊(baseAmount : ℚ) * totalMultiplier⌋
      let finalAmount : ℤ := max 1 modifiedAmount
      (some (crop.type, finalAmount), ESMap.del crops (cropKey p))

/-- One slice of `getSaveData()`: the serialisable projection of a crop
(the `Vector3` flattened to `{x, y, z}` is `Vec3` itself here). -/
structure SavedCropData where
  type : CropType
  plantedDay : ℤ
  plantedSeason : Season
  growthStage : ℤ
  position : Vec3
deriving DecidableEq, Repr

/-- `getSaveData()`: project every registry value. -/
def getSaveData (crops : CropsMap) : List SavedCropData :=
  (ESMap.values crops).map (fun crop =>
    { type := crop.type, plantedDay := crop.plantedDay,
      plantedSeason := crop.plantedSeason, growthStage := crop.growthStage,
      position := crop.position })

/-- `loadSaveData(saveData)`: clear the registry and `set` every saved
crop under the key recomputed from its position.  (Templates exist for
all four crop types, so no entry is skipped.) -/
def loadSaveData (saveData : List SavedCropData) : CropsMap :=
  saveData.foldl
    (fun m savedCrop =>
      ESMap.set m (cropKey savedCrop.position)
        { type := savedCrop.type, plantedDay := savedCrop.plantedDay,
          plantedSeason := savedCrop.plantedSeason,
          growthStage := savedCrop.growthStage,
          position := savedCrop.position })
    []

end CropSystem

/-! ## FieldStateSystem

Embeds `src/systems/FieldStateSystem.ts`: per-cell soil preparation state
with day-based decay. -/

/-- `FieldData` of `FieldStateSystem.ts` (mesh dropped). -/
structure FieldData where
  position : Vec3
  state : FieldState
  cropType : Option CropType
  lastStateChange : ℤ
deriving DecidableEq, Repr

namespace FieldStateSystem

/-- The registry key `` `${position.x}_${position.z}` ``. -/
def fieldKey (p : Vec3) : ℚ × ℚ := (p.x, p.z)

/-- The field registry: `fields: Map<string, FieldData>`. -/
abbrev FieldsMap := List ((ℚ × ℚ) × FieldData)

/-- `getFieldState(position)`: the cell's state, or `null` (`none`) when no
record exists. -/
def getFieldState (fields : FieldsMap) (p : Vec3) : Option FieldState :=
  (ESMap.get fields (fieldKey p)).map (fun f => f.state)

/-- `createField(position, initialState)`: record a new cell with the
given state, no crop type, and the current day as its last change day. -/
def createField (fields : FieldsMap) (p : Vec3) (st : FieldState)
    (currentDay : ℤ) : FieldsMap :=
  ESMap.set fields (fieldKey p)
    { position := p, state := st, cropType := none,
      lastStateChange := currentDay }

/-- `updateFieldState(position, newState, cropType?)`: create the cell if
missing (dropping the crop type, as `createField` does), else set its
state and last-change day, overwriting the crop type only when one is
supplied. -/
def updateFieldState (fields : FieldsMap) (p : Vec3) (newState : FieldState)
    (ct : Option CropType) (currentDay : ℤ) : FieldsMap :=
  match ESMap.get fields (fieldKey p) with
  | none => createField fields p newState currentDay
  | some fieldData =>
    ESMap.set fields (fieldKey p)
      { fieldData with
        state := newState
        lastStateChange := currentDay
        cropType :=
          match ct with
          | some c => some c
          | none => fieldData.cropType }

/-- The per-cell body of `processFieldDecay`: a `harvested` cell strictly
older than 2 days becomes `stubble`; else a `stubble` cell strictly older
than 5 days becomes `untilled`; transitions stamp the current day
(via `updateFieldState`, which leaves the crop type untouched). -/
def decayCell (currentDay : ℤ) (f : FieldData) : FieldData :=
  if f.state = FieldState.harvested ∧ 2 < currentDay - f.lastStateChange then
    { f with state := FieldState.stubble, lastStateChange := currentDay }
  else if f.state = FieldState.stubble ∧ 5 < currentDay - f.lastStateChange then
    { f with state := FieldState.untilled, lastStateChange := currentDay }
  else f

/-- `processFieldDecay()`: apply the decay rule to every cell.  Cell keys
in a `Map` are distinct, so the per-cell in-place updates are independent
and the sweep is a `map`. -/
def processFieldDecay (currentDay : ℤ) (fields : FieldsMap) : FieldsMap :=
  fields.map (fun e => (e.1, decayCell currentDay e.2))

/-- `processFieldDecay` invoked once on each of the days
`d0 + 1, …, d0 + n` (the claim's "invoked every subsequent day"). -/
def dailyDecay (d0 : ℤ) : ℕ → FieldsMap → FieldsMap
  | 0, fields => fields
  | n + 1, fields => processFieldDecay (d0 + (n + 1)) (dailyDecay d0 n fields)

/-- The same daily iteration on a single cell's data. -/
def cellIter (d0 : ℤ) : ℕ → FieldData → FieldData
  | 0, f => f
  | n + 1, f => decayCell (d0 + (n + 1)) (cellIter d0 n f)

/-- A cell whose state was set to `harvested` on day `D`. -/
def harvestedField (p : Vec3) (D : ℤ) : FieldData :=
  { position := p, state := FieldState.harvested, cropType := none,
    lastStateChange := D }

/-- `getSaveData()`: the saved slice is the field record itself (position
already flattened). -/
def getSaveData (fields : FieldsMap) : List FieldData :=
  (ESMap.values fields).map (fun field =>
    { position := field.position, state := field.state,
      cropType := field.cropType,
      lastStateChange := field.lastStateChange })

/-- `loadSaveData(saveData)`: clear and `set` every saved field under the
key recomputed from its position. -/
def loadSaveData (saveData : List FieldData) : FieldsMap :=
  saveData.foldl
    (fun m savedField => ESMap.set m (fieldKey savedField.position) savedField)
    []

end FieldStateSystem

/-! ## FarmExpansionSystem

Embeds `src/systems/FarmExpansionSystem.ts`: land plots with bounds and
ownership flags. -/

/-- A Babylon `BoundingBox` restricted to its min/max corners. -/
structure BoundingBox where
  minimum : Vec3
  maximum : Vec3
deriving DecidableEq, Repr

/-- `BoundingBox.intersectsPoint`: componentwise containment, inclusive. -/
def BoundingBox.intersectsPoint (b : BoundingBox) (p : Vec3) : Bool :=
  decide (b.minimum.x ≤ p.x ∧ p.x ≤ b.maximum.x ∧
    b.minimum.y ≤ p.y ∧ p.y ≤ b.maximum.y ∧
    b.minimum.z ≤ p.z ∧ p.z ≤ b.maximum.z)

/-- `LandPlot` of `FarmExpansionSystem.ts` (display name dropped). -/
structure LandPlot where
  id : String
  price : ℤ
  isOwned : Bool
  bounds : BoundingBox
deriving DecidableEq, Repr

namespace FarmExpansionSystem

/-- `initializePlots()`: the starter plot is owned from the start, the
northern and western plots are not. -/
def initialPlots : List LandPlot :=
  [{ id := "starter_plot", price := 0, isOwned := true,
     bounds := ⟨⟨-20, -1, -20⟩, ⟨20, 1, 20⟩⟩ },
   { id := "north_plot", price := 15000, isOwned := false,
     bounds := ⟨⟨-20, -1, 22⟩, ⟨20, 1, 62⟩⟩ },
   { id := "west_plot", price := 25000, isOwned := false,
     bounds := ⟨⟨-62, -1, -20⟩, ⟨-22, 1, 20⟩⟩ }]

/-- `getPlot(id)`. -/
def getPlot (plots : List LandPlot) (id : String) : Option LandPlot :=
  plots.find? (fun p => p.id = id)

/-- `purchasePlot(id)`: flip `isOwned` of the matching plot (plot ids are
distinct) if it exists and is not yet owned; report success. -/
def purchasePlot (plots : List LandPlot) (id : String) :
    Bool × List LandPlot :=
  match getPlot plots id with
  | none => (false, plots)
  | some plot =>
    if plot.isOwned then (false, plots)
    else
      (true,
        plots.map (fun p => if p.id = id then { p with isOwned := true } else p))

/-- `isPositionOnOwnedLand(position)`: the point lies in the bounds of
some owned plot. -/
def isPositionOnOwnedLand (plots : List LandPlot) (p : Vec3) : Bool :=
  plots.any (fun plot => plot.isOwned && plot.bounds.intersectsPoint p)

/-- `getSaveData()`: the ids of the owned plots. -/
def getSaveData (plots : List LandPlot) : List String :=
  (plots.filter (fun p => p.isOwned)).map (fun p => p.id)

/-- `loadSaveData(data)`: the starter plot is always owned; every other
plot is owned iff its id appears in the saved list. -/
def loadSaveData (plots : List LandPlot) (ownedPlots : List String) :
    List LandPlot :=
  plots.map (fun plot =>
    if plot.id = "starter_plot" then { plot with isOwned := true }
    else { plot with isOwned := ownedPlots.contains plot.id })

end FarmExpansionSystem

/-! ## BuildingSystem

Embeds the placed-buildings slice of `src/systems/BuildingSystem.ts`
(catalog visuals and placement validation live elsewhere; the claims
need the storage contribution and the save/load round trip). -/

/-- `PlacedBuilding` of `BuildingSystem.ts`. -/
structure PlacedBuilding where
  id : String
  position : Vec3
  rotation : Vec3
  dimensions : Vec3
deriving DecidableEq, Repr

namespace BuildingSystem

/-- The `effects.storageCapacity` of a catalog entry (only the silos
define one). -/
def catalogStorageCapacity (id : String) : ℤ :=
  if id = "small_silo" then 1000
  else if id = "large_silo" then 5000
  else 0

/-- `getTotalStorageCapacity()`: sum the storage effects of all placed
buildings. -/
def getTotalStorageCapacity (placedBuildings : List PlacedBuilding) : ℤ :=
  (placedBuildings.map (fun b => catalogStorageCapacity b.id)).sum

/-- `getSaveData().placedBuildings`: the flattened list. -/
def getSaveData (placedBuildings : List PlacedBuilding) :
    List PlacedBuilding :=
  placedBuildings.map (fun building =>
    { id := building.id, position := building.position,
      rotation := building.rotation, dimensions := building.dimensions })

/-- `loadSaveData(data)`: rebuild the list entry by entry. -/
def loadSaveData (saved : List PlacedBuilding) : List PlacedBuilding :=
  saved.map (fun building =>
    { id := building.id, position := building.position,
      rotation := building.rotation, dimensions := building.dimensions })

end BuildingSystem

/-! ## EconomySystem

Embeds `src/systems/EconomySystem.ts`: cash, per-crop inventory, market
and seed price tables, and storage-capacity-clamped inventory
insertion. -/

namespace EconomySystem

/-- The mutable state of `EconomySystem` (the live references to the
equipment and building systems enter as explicit capacity arguments). -/
structure State where
  money : ℤ
  inventory : CropType → ℤ
  marketPrices : CropType → ℤ
  lastPriceUpdate : ℚ

/-- The static `seedPrices` table set by `initializePrices()`. -/
def seedPrices : CropType → ℤ
  | .wheat => 2
  | .corn => 3
  | .potato => 4
  | .carrot => 1

/-- The `basePrices` table of `updateMarketPrices()` — also the initial
`marketPrices` set by `initializePrices()`. -/
def basePrices : CropType → ℤ
  | .wheat => 8
  | .corn => 12
  | .potato => 10
  | .carrot => 6

/-- `updateMarketPrices()`: re-randomise every crop's price around its
base price; `rand t` is the `Math.random()` draw for crop `t`, so
`variation = (rand t - 0.5) * 0.4` and the new price is
`round(basePrice * (1 + variation))`. -/
def updateMarketPrices (s : State) (rand : CropType → ℚ) : State :=
  { s with
    marketPrices := fun t =>
      jsRound ((basePrices t : ℚ) * (1 + (rand t - 1/2) * (4/10))) }

/-- `buySeeds(cropType, quantity)`: deduct the seed cost when affordable. -/
def buySeeds (s : State) (ct : CropType) (quantity : ℤ) : Bool × State :=
  let totalCost := seedPrices ct * quantity
  if totalCost ≤ s.money then
    (true, { s with money := s.money - totalCost })
  else (false, s)

/-- `sellCrop(cropType, quantity)`: deduct inventory and credit the
market price when enough is held. -/
def sellCrop (s : State) (ct : CropType) (quantity : ℤ) : Bool × State :=
  let currentInventory := s.inventory ct
  if quantity ≤ currentInventory then
    let revenue := s.marketPrices ct * quantity
    (true,
      { s with
        inventory := fun t =>
          if t = ct then currentInventory - quantity else s.inventory t
        money := s.money + revenue })
  else (false, s)

/-- `sellAllOfType(cropType)`: sell the full held quantity; returns it. -/
def sellAllOfType (s : State) (ct : CropType) : ℤ × State :=
  let quantity := s.inventory ct
  if 0 < quantity then (quantity, (sellCrop s ct quantity).2)
  else (0, s)

/-- `sellAllCrops()`: `sellAllOfType` over every crop type in object-key
order; returns the per-type quantity-sold map. -/
def sellAllCrops (s : State) : (CropType → ℤ) × State :=
  cropTypesList.foldl
    (fun (acc : (CropType → ℤ) × State) ct =>
      ((fun t => if t = ct then (sellAllOfType acc.2 ct).1 else acc.1 t),
        (sellAllOfType acc.2 ct).2))
    (fun _ => 0, s)

/-- `getTotalInventoryCount()`. -/
def getTotalInventoryCount (s : State) : ℤ :=
  (cropTypesList.map s.inventory).sum

/-- `getStorageCapacity()`: base 500 plus the equipment effects'
`storageCapacity || 0` plus the building system's total.  The two
contributions are read live from the collaborating systems; they enter
here as arguments. -/
def getStorageCapacity (equipmentCapacity buildingCapacity : ℤ) : ℤ :=
  500 + equipmentCapacity + buildingCapacity

/-- `addToInventory(cropType, quantity)` with the live
`getStorageCapacity()` value: clamp to the remaining space and report
full success (`true`) or partial/failed storage (`false`). -/
def addToInventory (s : State) (ct : CropType) (quantity : ℤ)
    (storageCapacity : ℤ) : Bool × State :=
  let currentQuantity := s.inventory ct
  let totalInventoryItems := getTotalInventoryCount s
  if storageCapacity < totalInventoryItems + quantity then
    let availableSpace := storageCapacity - totalInventoryItems
    if 0 < availableSpace then
      (false,
        { s with
          inventory := fun t =>
            if t = ct then currentQuantity + availableSpace
            else s.inventory t })
    else (false, s)
  else
    (true,
      { s with
        inventory := fun t =>
          if t = ct then currentQuantity + quantity else s.inventory t })

/-- `getMoney()`. -/
def getMoney (s : State) : ℤ := s.money

/-- `setMoney(amount)`: clamped at 0. -/
def setMoney (s : State) (amount : ℤ) : State :=
  { s with money := max 0 amount }

/-- The serialisable slice produced by `getSaveData()` (`economyData`). -/
structure SavedEconomyData where
  money : ℤ
  inventory : CropType → ℤ
  marketPrices : CropType → ℤ
  lastPriceUpdate : ℚ

/-- `getSaveData()`: dump money, the inventory map, the market prices and
the price timer. -/
def getSaveData (s : State) : SavedEconomyData :=
  { money := s.money, inventory := s.inventory,
    marketPrices := s.marketPrices, lastPriceUpdate := s.lastPriceUpdate }

/-- `loadSaveData(saveData)`.  The money is restored through the
JavaScript defaulting idiom `saveData.money || 100000` — so a saved
balance of `0` (falsy) comes back as `100000`.  The inventory is cleared,
re-seeded with zeros for the four crop types and overwritten with the
saved entries (a live save always carries all four types, so the net
effect is the saved map); market prices are copied; the price timer uses
`|| 0`. -/
def loadSaveData (saveData : SavedEconomyData) : State :=
  { money := jsOr saveData.money 100000
    inventory := fun t => saveData.inventory t
    marketPrices := fun t => saveData.marketPrices t
    lastPriceUpdate := jsOrRat saveData.lastPriceUpdate 0 }

end EconomySystem

/-! ## LivestockSystem

Embeds `src/systems/LivestockSystem.ts`: the animal registry, purchase,
daily feeding, product collection and ageing.  The economy interactions
go through `EconomySystem.setMoney`, as in the source. -/

/-- `AnimalData` of `LivestockSystem.ts` (mesh dropped).  The id string
`` `animal_${n}` `` is represented by its numeric part. -/
structure AnimalData where
  id : ℕ
  type : AnimalType
  position : Vec3
  age : ℤ
  happiness : ℤ
  health : ℤ
  lastFed : ℤ
deriving DecidableEq, Repr

/-- `AnimalInfo` of `LivestockSystem.ts` (display name and color
dropped). -/
structure AnimalInfo where
  purchasePrice : ℤ
  dailyUpkeep : ℤ
  maturityAge : ℤ
  productType : String
  productValue : ℤ
  productionRate : ℚ
deriving DecidableEq, Repr

namespace LivestockSystem

/-- The `animalInfo` table. -/
def animalInfo : AnimalType → AnimalInfo
  | .chicken => ⟨50, 2, 10, "eggs", 5, 8/10⟩
  | .cow => ⟨1000, 15, 30, "milk", 25, 12/10⟩
  | .pig => ⟨300, 8, 20, "meat", 150, 1/10⟩
  | .sheep => ⟨200, 5, 15, "wool", 30, 3/10⟩

/-- The animal types in the object-key order of `animalInfo`. -/
def animalTypesList : List AnimalType :=
  [AnimalType.chicken, AnimalType.cow, AnimalType.pig, AnimalType.sheep]

/-- The animal registry: `animals: Map<string, AnimalData>`. -/
abbrev AnimalsMap := List (ℕ × AnimalData)

/-- `Object.values(this.animalInfo).find(info => info.productType ===
productType)?.productValue || 0`. -/
def productValueOf (productType : String) : ℤ :=
  match animalTypesList.find?
      (fun ty => (animalInfo ty).productType = productType) with
  | some ty => (animalInfo ty).productValue
  | none => 0

/-- `purchaseAnimal(animalType, position)`: requires owned land and
sufficient cash; creates the animal with `age = 0`, full happiness and
health, `lastFed = currentDay`, and deducts the price through
`setMoney`. -/
def purchaseAnimal (animals : AnimalsMap) (nextAnimalId : ℕ)
    (plots : List LandPlot) (econ : EconomySystem.State) (ty : AnimalType)
    (position : Vec3) (currentDay : ℤ) :
    Bool × AnimalsMap × ℕ × EconomySystem.State :=
  let info := animalInfo ty
  if ¬ FarmExpansionSystem.isPositionOnOwnedLand plots position then
    (false, animals, nextAnimalId, econ)
  else if econ.money < info.purchasePrice then
    (false, animals, nextAnimalId, econ)
  else
    let animal : AnimalData :=
      { id := nextAnimalId, type := ty, position := position, age := 0,
        happiness := 100, health := 100, lastFed := currentDay }
    (true, ESMap.set animals nextAnimalId animal, nextAnimalId + 1,
      EconomySystem.setMoney econ (econ.money - info.purchasePrice))

/-- `feedAnimals()`: every animal not yet fed today is fed (happiness
+20, health +10, capped at 100) when the balance covers its upkeep —
each per-animal check reads the same balance, since the aggregated cost
is deducted only once at the end through `setMoney` — and penalised
(happiness −10, health −5, floored at 0) otherwise. -/
def feedAnimals (animals : AnimalsMap) (econ : EconomySystem.State)
    (currentDay : ℤ) : AnimalsMap × EconomySystem.State :=
  let animals2 := animals.map (fun e =>
    (e.1,
      if e.2.lastFed < currentDay then
        if (animalInfo e.2.type).dailyUpkeep ≤ econ.money then
          { e.2 with
            lastFed := currentDay
            happiness := min 100 (e.2.happiness + 20)
            health := min 100 (e.2.health + 10) }
        else
          { e.2 with
            happiness := max 0 (e.2.happiness - 10)
            health := max 0 (e.2.health - 5) }
      else e.2))
  let totalCost :=
    (((ESMap.values animals).filter (fun a =>
        decide (a.lastFed < currentDay) &&
          decide ((animalInfo a.type).dailyUpkeep ≤ econ.money))).map
      (fun a => (animalInfo a.type).dailyUpkeep)).sum
  if 0 < totalCost then
    (animals2, EconomySystem.setMoney econ (econ.money - totalCost))
  else (animals2, econ)

/-- Production eligibility: mature, healthy and happy. -/
def productionEligible (a : AnimalData) : Prop :=
  (animalInfo a.type).maturityAge ≤ a.age ∧ 50 < a.health ∧ 30 < a.happiness

instance (a : AnimalData) : Decidable (productionEligible a) := by
  unfold productionEligible; infer_instance

/-- `collectProducts()`: every eligible animal whose Bernoulli draw
(`rand i` for the i-th animal in registry order) beats its production
rate yields one product unit; the aggregated value is credited through
`setMoney`. -/
def collectProducts (animals : AnimalsMap) (econ : EconomySystem.State)
    (rand : ℕ → ℚ) : EconomySystem.State :=
  let produced := (((ESMap.values animals).enum).filter (fun e =>
    decide (productionEligible e.2) &&
      decide (rand e.1 < (animalInfo e.2.type).productionRate))).map
    (fun e => e.2)
  let totalValue :=
    (produced.map (fun a => productValueOf (animalInfo a.type).productType)).sum
  if 0 < totalValue then
    EconomySystem.setMoney econ (econ.money + totalValue)
  else econ

/-- `updateAnimalAge(animal, timeData)`: derive a "current day" from the
clock using fixed per-season offsets (Spring +0, Summer +28, Fall +56,
Winter +84) and raise the stored age to it when larger. -/
def updateAnimalAge (a : AnimalData) (td : TimeData) : AnimalData :=
  let currentDay : ℤ :=
    match td.season with
    | .Spring => (td.day : ℤ)
    | .Summer => (td.day : ℤ) + 28
    | .Fall => (td.day : ℤ) + 56
    | .Winter => (td.day : ℤ) + 84
  if a.age < currentDay then { a with age := currentDay } else a

/-- `getSaveData().animals`: project every registry value. -/
def getSaveData (animals : AnimalsMap) : List AnimalData :=
  (ESMap.values animals).map (fun a =>
    { id := a.id, type := a.type, position := a.position, age := a.age,
      happiness := a.happiness, health := a.health, lastFed := a.lastFed })

/-- `loadSaveData(data)`: clear and `set` every saved animal under its
id.  (Templates exist for all four animal types, so none is skipped.) -/
def loadSaveData (saved : List AnimalData) : AnimalsMap :=
  saved.foldl
    (fun m a =>
      ESMap.set m a.id
        { id := a.id, type := a.type, position := a.position, age := a.age,
          happiness := a.happiness, health := a.health,
          lastFed := a.lastFed })
    []

/-- The `nextAnimalId` recomputed on load: `Math.max(0, ...ids) + 1`. -/
def nextIdAfterLoad (saved : List AnimalData) : ℕ :=
  (saved.map (fun a => a.id)).foldl max 0 + 1

end LivestockSystem

/-! ## Save/Load Codec (Game.saveGame / Game.loadGame)

The aggregate save document and the per-registry save/load sweep of
`Game.ts`.  The claims' observable getters cover the economy, crop,
field, land, building and livestock registries; the purely presentational
slices (player transform, vehicle kinematics) and the time/weather slices
are outside the getters named by the round-trip claim. -/

/-- The simulation-relevant slices of a `GameState`. -/
structure GameState where
  econ : EconomySystem.State
  crops : CropSystem.CropsMap
  fields : FieldStateSystem.FieldsMap
  plots : List LandPlot
  buildings : List PlacedBuilding
  animals : LivestockSystem.AnimalsMap
  nextAnimalId : ℕ

/-- The corresponding slices of `GameSaveData`. -/
structure GameSaveData where
  economyData : EconomySystem.SavedEconomyData
  cropsData : List CropSystem.SavedCropData
  fieldStateData : List FieldData
  farmExpansionData : List String
  buildingData : List PlacedBuilding
  livestockData : List AnimalData

namespace Game

/-- `saveGame()`: each registry contributes its `getSaveData()` slice. -/
def saveGame (s : GameState) : GameSaveData :=
  { economyData := EconomySystem.getSaveData s.econ
    cropsData := CropSystem.getSaveData s.crops
    fieldStateData := FieldStateSystem.getSaveData s.fields
    farmExpansionData := FarmExpansionSystem.getSaveData s.plots
    buildingData := BuildingSystem.getSaveData s.buildings
    livestockData := LivestockSystem.getSaveData s.animals }

/-- `loadGame()`: each registry rebuilds from its slice (the land
registry mutates the live plot list in place). -/
def loadGame (s : GameState) (d : GameSaveData) : GameState :=
  { econ := EconomySystem.loadSaveData d.economyData
    crops := CropSystem.loadSaveData d.cropsData
    fields := FieldStateSystem.loadSaveData d.fieldStateData
    plots := FarmExpansionSystem.loadSaveData s.plots d.farmExpansionData
    buildings := BuildingSystem.loadSaveData d.buildingData
    animals := LivestockSystem.loadSaveData d.livestockData
    nextAnimalId := LivestockSystem.nextIdAfterLoad d.livestockData }

end Game

/-- The state invariants every reachable game state satisfies, used by
the round-trip theorem: registry keys are duplicate-free (an ES `Map`
guarantee) and agree with the keys derivable from the stored values
(planting, tilling and purchase all key by the stored position/id), plot
ids are distinct, and the starter plot is owned (it starts owned and
ownership is never revoked). -/
def GameState.wf (s : GameState) : Prop :=
  (ESMap.keys s.crops).Nodup ∧
  (∀ e ∈ s.crops, e.1 = CropSystem.cropKey e.2.position) ∧
  (ESMap.keys s.fields).Nodup ∧
  (∀ e ∈ s.fields, e.1 = FieldStateSystem.fieldKey e.2.position) ∧
  (ESMap.keys s.animals).Nodup ∧
  (∀ e ∈ s.animals, e.1 = e.2.id) ∧
  (s.plots.map LandPlot.id).Nodup ∧
  (∀ p ∈ s.plots, p.id = "starter_plot" → p.isOwned = true)

/-! ## InputManager command layer

The plant and harvest commands of `src/game/InputManager.ts`
(`handleInteraction`), which sequence the per-system operations. -/

/-- The registries a plant/harvest command touches. -/
structure PlantState where
  crops : CropSystem.CropsMap
  fields : FieldStateSystem.FieldsMap
  econ : EconomySystem.State

namespace InputManager

/-- `getPlantingPositions(centerPosition, workingArea)`: the square of
grid positions of side `workingArea` centred on the given cell, at 2-unit
spacing (x outer loop, z inner loop, both from `-halfArea` to
`halfArea` with `halfArea = Math.floor(workingArea / 2)`). -/
def getPlantingPositions (centerPosition : Vec3) (workingArea : ℕ) :
    List Vec3 :=
  let halfArea := workingArea / 2
  let offsets := (List.range (2 * halfArea + 1)).map
    (fun i => (i : ℤ) - halfArea)
  offsets.flatMap (fun x =>
    offsets.map (fun z =>
      ⟨centerPosition.x + x * 2, centerPosition.y,
        centerPosition.z + z * 2⟩))

/-- The per-position body of the planting loop: skip the position unless
its field state is `tilled`; then, if no crop occupies it and it is on
owned land, buy one seed packet and plant, driving the field state to
`planted` on success.  (`buySeeds` deducts before `plantCrop` runs, as in
the source.) -/
def plantAtPosition (plots : List LandPlot) (ct : CropType)
    (currentDay : ℤ) (currentSeason : Season) (s : PlantState)
    (position : Vec3) : PlantState :=
  if FieldStateSystem.getFieldState s.fields position ≠
      some FieldState.tilled then s
  else if (CropSystem.getCropAt s.crops position).isNone &&
      FarmExpansionSystem.isPositionOnOwnedLand plots position then
    let bought := EconomySystem.buySeeds s.econ ct 1
    if bought.1 then
      let planted := CropSystem.plantCrop
        (FarmExpansionSystem.isPositionOnOwnedLand plots position) s.crops
        ct position currentDay currentSeason
      if planted.1 then
        { crops := planted.2
          fields := FieldStateSystem.updateFieldState s.fields position
            FieldState.planted (some ct) currentDay
          econ := bought.2 }
      else { s with econ := bought.2 }
    else s
  else s

/-- The plant command (`handleInteraction`, planting branch): reject
unless the targeted cell is `tilled`; check the total seed cost for the
working area up front; then run the per-position loop. -/
def plantCommand (plots : List LandPlot) (ct : CropType) (currentDay : ℤ)
    (currentSeason : Season) (s : PlantState) (gridPosition : Vec3)
    (workingArea : ℕ) : PlantState :=
  if FieldStateSystem.getFieldState s.fields gridPosition ≠
      some FieldState.tilled then s
  else
    let plantingPositions := getPlantingPositions gridPosition workingArea
    let totalSeedCost :=
      EconomySystem.seedPrices ct * plantingPositions.length
    if totalSeedCost ≤ s.econ.money then
      plantingPositions.foldl (plantAtPosition plots ct currentDay
        currentSeason) s
    else s

/-- The harvest command (`handleInteraction`, harvesting branch):
`harvestCrop` removes the crop and fixes the yield first; only then is
the yield offered to `addToInventory` (which clamps at the live storage
capacity), and the field state driven to `harvested`.  The command
returns the storage flag it logs (`none` when no harvest happened). -/
def harvestCommand (s : PlantState) (gridPosition : Vec3)
    (equipmentYield attachmentEfficiency : ℚ) (w : WeatherType) (r : ℚ)
    (storageCapacity : ℤ) (currentDay : ℤ) : PlantState × Option Bool :=
  let harvested := CropSystem.harvestCrop s.crops gridPosition
    equipmentYield attachmentEfficiency w r
  match harvested.1 with
  | none => ({ s with crops := harvested.2 }, none)
  | some result =>
    let stored := EconomySystem.addToInventory s.econ result.1 result.2
      storageCapacity
    ({ crops := harvested.2
       fields := FieldStateSystem.updateFieldState s.fields gridPosition
         FieldState.harvested none currentDay
       econ := stored.2 }, some stored.1)

end InputManager

/-! ## The C5 command sequences

The commands named by the cash-non-negativity claim, as a step relation
on the state they touch. -/

/-- The state the C5 commands read and write. -/
structure FarmState where
  econ : EconomySystem.State
  animals : LivestockSystem.AnimalsMap
  nextAnimalId : ℕ
  plots : List LandPlot
  currentDay : ℤ

/-- The command alphabet of the cash-non-negativity claim.  Quantities
are the non-negative counts the command surface passes; `rand` carries
the `Math.random()` draws of `collectProducts`. -/
inductive EconomyCmd where
  | buySeeds (ct : CropType) (quantity : ℕ)
  | sellCrop (ct : CropType) (quantity : ℕ)
  | sellAllCrops
  | setMoney (amount : ℤ)
  | purchaseAnimal (ty : AnimalType) (position : Vec3)
  | feedAnimals
  | collectProducts (rand : ℕ → ℚ)

/-- One command step, dispatching to the embedded system operations. -/
def stepCmd (s : FarmState) : EconomyCmd → FarmState
  | .buySeeds ct q =>
    { s with econ := (EconomySystem.buySeeds s.econ ct q).2 }
  | .sellCrop ct q =>
    { s with econ := (EconomySystem.sellCrop s.econ ct q).2 }
  | .sellAllCrops =>
    { s with econ := (EconomySystem.sellAllCrops s.econ).2 }
  | .setMoney a => { s with econ := EconomySystem.setMoney s.econ a }
  | .purchaseAnimal ty pos =>
    let r := LivestockSystem.purchaseAnimal s.animals s.nextAnimalId
      s.plots s.econ ty pos s.currentDay
    { s with animals := r.2.1, nextAnimalId := r.2.2.1, econ := r.2.2.2 }
  | .feedAnimals =>
    let r := LivestockSystem.feedAnimals s.animals s.econ s.currentDay
    { s with animals := r.1, econ := r.2 }
  | .collectProducts rand =>
    { s with econ := LivestockSystem.collectProducts s.animals s.econ rand }

/-- A command sequence, applied left to right. -/
def runCmds (s : FarmState) (cmds : List EconomyCmd) : FarmState :=
  cmds.foldl stepCmd s

/-- The initial economy state: `money = 100000`, zero inventory, the
initial price tables, timer 0. -/
def initialEconState : EconomySystem.State :=
  { money := 100000, inventory := fun _ => 0,
    marketPrices := EconomySystem.basePrices, lastPriceUpdate := 0 }

/-! # Theorems -/

/-! ## ES `Map` lemmas -/

namespace ESMap

variable {κ α : Type} [DecidableEq κ]

theorem get_del_self (m : List (κ × α)) (k : κ) : get (del m k) k = none := by
  unfold get del
  rw [Option.map_eq_none', List.find?_eq_none]
  intro e he
  have h2 := (List.mem_filter.mp he).2
  simp only [decide_not, Bool.not_eq_eq_eq_not, Bool.not_true,
    decide_eq_false_iff_not] at h2
  simpa using h2

theorem get_eq_none_of_not_mem_keys (m : List (κ × α)) (k : κ)
    (h : k ∉ keys m) : get m k = none := by
  unfold get
  rw [Option.map_eq_none', List.find?_eq_none]
  intro e he
  simp only [decide_eq_true_eq]
  intro hk
  exact h (hk ▸ List.mem_map_of_mem Prod.fst he)

theorem set_fresh (m : List (κ × α)) (k : κ) (v : α) (h : k ∉ keys m) :
    set m k v = m ++ [(k, v)] := by
  unfold set
  have hn : (m.find? (fun e => e.1 = k)) = none := by
    rw [List.find?_eq_none]
    intro e he
    simp only [decide_eq_true_eq]
    intro hk
    exact h (hk ▸ List.mem_map_of_mem Prod.fst he)
  rw [hn]
  rfl

theorem get_append_single_ne (m : List (κ × α)) (k k2 : κ) (v : α)
    (h : k2 ≠ k) : get (m ++ [(k2, v)]) k = get m k := by
  unfold get
  rw [List.find?_append]
  have hsingle : List.find? (fun e => decide (e.1 = k)) [(k2, v)] = none := by
    simp [h]
  rw [hsingle]
  cases m.find? (fun e => decide (e.1 = k)) <;> rfl

/-- Rebuilding an association list by `set`ting every entry's value under
its own key, starting from the empty map, reproduces the list — provided
the keys are duplicate-free and each entry's key is the one derived from
its value. -/
theorem rebuild_aux (keyOf : α → κ) (l : List (κ × α)) :
    ∀ acc : List (κ × α), (∀ e ∈ l, e.1 = keyOf e.2) →
      ((keys acc ++ keys l).Nodup) →
      (values l).foldl (fun m v => set m (keyOf v) v) acc = acc ++ l := by
  induction l with
  | nil => intro acc _ _; simp [values]
  | cons e rest ih =>
    intro acc hkeys hnd
    have hkey : e.1 = keyOf e.2 := hkeys e (List.mem_cons_self e rest)
    have hfresh : keyOf e.2 ∉ keys acc := by
      intro hmem
      rw [← hkey] at hmem
      rw [List.nodup_append] at hnd
      exact hnd.2.2 hmem (by simp [keys])
    have hstep : set acc (keyOf e.2) e.2 = acc ++ [(keyOf e.2, e.2)] :=
      set_fresh acc (keyOf e.2) e.2 hfresh
    have hpair : ((keyOf e.2 : κ), e.2) = e := by rw [← hkey]
    have hnd2 : (keys (acc ++ [e]) ++ keys rest).Nodup := by
      have h1 : keys (acc ++ [e]) ++ keys rest =
          keys acc ++ keys (e :: rest) := by
        simp [keys]
      rw [h1]
      exact hnd
    have ih2 := ih (acc ++ [e])
      (fun x hx => hkeys x (List.mem_cons_of_mem e hx)) hnd2
    simp only [values, List.map_cons, List.foldl_cons]
    rw [hstep, hpair]
    simp only [values] at ih2
    rw [ih2]
    simp

theorem rebuild (keyOf : α → κ) (l : List (κ × α))
    (hkeys : ∀ e ∈ l, e.1 = keyOf e.2) (hnd : (keys l).Nodup) :
    (values l).foldl (fun m v => set m (keyOf v) v) [] = l := by
  have := rebuild_aux keyOf l [] hkeys (by simpa [keys])
  simpa using this

theorem find?_setEntry (m : List (κ × α)) (k k2 : κ) (v : α) (h : k2 ≠ k) :
    List.find? (fun e => e.1 = k)
        (m.map (fun e => if e.1 = k2 then (k2, v) else e)) =
      List.find? (fun e => e.1 = k) m := by
  induction m with
  | nil => rfl
  | cons e rest ih =>
    simp only [List.map_cons]
    by_cases he2 : e.1 = k2
    · rw [if_pos he2]
      rw [List.find?_cons_of_neg _ (by simp [h]),
        List.find?_cons_of_neg _ (by simp [he2, h])]
      exact ih
    · rw [if_neg he2]
      by_cases hek : e.1 = k
      · rw [List.find?_cons_of_pos _ (by simp [hek]),
          List.find?_cons_of_pos _ (by simp [hek])]
      · rw [List.find?_cons_of_neg _ (by simp [hek]),
          List.find?_cons_of_neg _ (by simp [hek])]
        exact ih

theorem get_set_ne (m : List (κ × α)) (k k2 : κ) (v : α) (h : k2 ≠ k) :
    get (set m k2 v) k = get m k := by
  unfold set
  by_cases hf : (m.find? (fun e => e.1 = k2)).isSome
  · rw [if_pos hf]
    unfold get
    rw [find?_setEntry m k k2 v h]
  · rw [if_neg hf]
    exact get_append_single_ne m k k2 v h

theorem find?_setEntry_self (m : List (κ × α)) (k : κ) (v : α)
    (hf : (m.find? (fun e => e.1 = k)).isSome) :
    List.find? (fun e => e.1 = k)
        (m.map (fun e => if e.1 = k then (k, v) else e)) = some (k, v) := by
  induction m with
  | nil => simp at hf
  | cons e rest ih =>
    by_cases he : e.1 = k
    · simp only [List.map_cons, if_pos he]
      rw [List.find?_cons_of_pos _ (by simp)]
    · simp only [List.map_cons, if_neg he]
      rw [List.find?_cons_of_neg _ (by simp [he])]
      apply ih
      rw [List.find?_cons_of_neg _ (by simp [he])] at hf
      exact hf

theorem get_set_self (m : List (κ × α)) (k : κ) (v : α) :
    get (set m k v) k = some v := by
  unfold set
  by_cases hf : (m.find? (fun e => e.1 = k)).isSome
  · rw [if_pos hf]
    unfold get
    rw [find?_setEntry_self m k v hf]
    rfl
  · rw [if_neg hf]
    unfold get
    rw [List.find?_append]
    have hnone : m.find? (fun e => decide (e.1 = k)) = none := by
      cases hx : m.find? (fun e => decide (e.1 = k))
      · rfl
      · rw [hx] at hf; simp at hf
    rw [hnone]
    simp

end ESMap

/-! ## Clock theorems (C7) -/

namespace TimeSystem

theorem carryStep_spec (t : TimeData) (h60 : 60 ≤ t.minute) (hc : wfCore t) :
    wfCore (carryStep t) ∧ (carryStep t).minute = t.minute - 60 ∧
      (carryStep t).totalMinutes = t.totalMinutes := by
  obtain ⟨hh, hd1, hd2, hy⟩ := hc
  cases hs : t.season <;>
    (simp only [carryStep, advanceSeason, nextSeason, hs, daysInSeason,
       wfCore, TimeData.totalMinutes, Season.idx]
     split_ifs <;> (simp_all; try push_cast) <;> omega)

theorem normalizeAux_spec (fuel : ℕ) (t : TimeData) (hc : wfCore t)
    (hfuel : t.minute ≤ fuel) :
    (normalizeAux fuel t).wf ∧
      (normalizeAux fuel t).totalMinutes = t.totalMinutes := by
  induction fuel generalizing t with
  | zero =>
    simp only [normalizeAux]
    obtain ⟨hh, hd1, hd2, hy⟩ := hc
    exact ⟨⟨by omega, hh, hd1, hd2, hy⟩, trivial⟩
  | succ fuel ih =>
    simp only [normalizeAux]
    by_cases h60 : 60 ≤ t.minute
    · simp only [h60, if_true]
      obtain ⟨hc2, hm, htot⟩ := carryStep_spec t h60 hc
      obtain ⟨hwf, htot2⟩ := ih (carryStep t) hc2 (by omega)
      exact ⟨hwf, htot2.trans htot⟩
    · simp only [h60, if_false]
      obtain ⟨hh, hd1, hd2, hy⟩ := hc
      exact ⟨⟨by omega, hh, hd1, hd2, hy⟩, trivial⟩

theorem addMinutes_spec (t : TimeData) (m : ℕ) (h : t.wf) :
    (addMinutes t m).wf ∧
      (addMinutes t m).totalMinutes = t.totalMinutes + m := by
  obtain ⟨hmin, hh, hd1, hd2, hy⟩ := h
  have hc : wfCore { t with minute := t.minute + m } := ⟨hh, hd1, hd2, hy⟩
  obtain ⟨hwf, htot⟩ :=
    normalizeAux_spec (t.minute + m) { t with minute := t.minute + m } hc
      (le_refl _)
  refine ⟨hwf, ?_⟩
  rw [addMinutes, htot]
  simp only [TimeData.totalMinutes]
  push_cast
  ring

end TimeSystem

/-- C7: Clock carry invariant.  For every `deltaTime ≥ 0` and every clock
state within the documented bounds (minute 0–59, hour 0–23, day 1–30,
year ≥ 1), `update(deltaTime)` yields a clock state within the same
bounds, and the new clock's canonical total-minute count exceeds the old
one by exactly the number of whole game minutes converted from the
accumulator.  Since a bounded clock state is uniquely determined by its
total-minute count in the positional encoding (60 minutes/hour, 24
hours/day, 30 days/season, seasons in the order
Spring→Summer→Fall→Winter, 4 seasons/year), this pins down every carry
rule the claim lists: minute overflow carries into the hour, hour
overflow into the day, day overflow past 30 resets the day to 1 and
advances the season, and the Winter→Spring wrap increments the year by
exactly 1. -/
theorem clock_carry_invariant (s : TimeSystem.State) (deltaTime : ℚ)
    (hdt : 0 ≤ deltaTime) (hwf : s.timeData.wf) :
    (TimeSystem.update s deltaTime).timeData.wf ∧
      (TimeSystem.update s deltaTime).timeData.totalMinutes =
        s.timeData.totalMinutes +
          (⌊(s.realTimeAccumulator + deltaTime) * (s.timeScale / 60)⌋).toNat := by
  clear hdt
  unfold TimeSystem.update
  by_cases hpos :
      0 < ⌊(s.realTimeAccumulator + deltaTime) * (s.timeScale / 60)⌋
  · simp only [hpos, if_true]
    exact TimeSystem.addMinutes_spec s.timeData _ hwf
  · simp only [hpos, if_false]
    refine ⟨hwf, ?_⟩
    rw [Int.toNat_of_nonpos (by omega)]
    simp

/-- Witness for C7 at a concrete input: the initial clock (6:00, day 1,
Spring, year 1, time scale 60) advanced by 90 real seconds. -/
theorem clock_carry_invariant_witness :
    (0 : ℚ) ≤ 90 ∧ (TimeData.mk 6 0 1 Season.Spring 1).wf ∧
      ((TimeSystem.update ⟨⟨6, 0, 1, .Spring, 1⟩, 60, 0⟩ 90).timeData.wf ∧
        (TimeSystem.update ⟨⟨6, 0, 1, .Spring, 1⟩, 60, 0⟩
            90).timeData.totalMinutes =
          (TimeData.mk 6 0 1 Season.Spring 1).totalMinutes +
            (⌊((0 : ℚ) + 90) * ((60 : ℚ) / 60)⌋).toNat) :=
  ⟨by norm_num, by decide,
    clock_carry_invariant ⟨⟨6, 0, 1, .Spring, 1⟩, 60, 0⟩ 90 (by norm_num)
      (by decide)⟩

/-! ## Field decay theorems (C2) -/

namespace FieldStateSystem

theorem dailyDecay_singleton (d0 : ℤ) (k : ℚ × ℚ) (f : FieldData) :
    ∀ n, dailyDecay d0 n [(k, f)] = [(k, cellIter d0 n f)] := by
  intro n
  induction n with
  | zero => rfl
  | succ n ih => simp [dailyDecay, cellIter, processFieldDecay, ih]

theorem decayCell_none (day : ℤ) (f : FieldData)
    (h1 : ¬ (f.state = FieldState.harvested ∧ 2 < day - f.lastStateChange))
    (h2 : ¬ (f.state = FieldState.stubble ∧ 5 < day - f.lastStateChange)) :
    decayCell day f = f := by
  unfold decayCell
  rw [if_neg h1, if_neg h2]

theorem decayCell_toStubble (day : ℤ) (f : FieldData)
    (h1 : f.state = FieldState.harvested ∧ 2 < day - f.lastStateChange) :
    decayCell day f =
      { f with state := FieldState.stubble, lastStateChange := day } := by
  unfold decayCell
  rw [if_pos h1]

theorem decayCell_toUntilled (day : ℤ) (f : FieldData)
    (h1 : ¬ (f.state = FieldState.harvested ∧ 2 < day - f.lastStateChange))
    (h2 : f.state = FieldState.stubble ∧ 5 < day - f.lastStateChange) :
    decayCell day f =
      { f with state := FieldState.untilled, lastStateChange := day } := by
  unfold decayCell
  rw [if_neg h1, if_pos h2]

theorem cellIter_harvested_spec (D : ℤ) (p : Vec3) :
    ∀ n : ℕ, n ≤ 9 →
      cellIter D n (harvestedField p D) =
        if n < 3 then harvestedField p D
        else if n < 9 then
          { harvestedField p D with
            state := FieldState.stubble, lastStateChange := D + 3 }
        else
          { harvestedField p D with
            state := FieldState.untilled, lastStateChange := D + 9 } := by
  intro n
  induction n with
  | zero => intro _; rfl
  | succ n ih =>
    intro hn
    have hn9 : n ≤ 9 := by omega
    rw [cellIter, ih hn9]
    by_cases h3 : n + 1 < 3
    · have h3n : n < 3 := by omega
      rw [if_pos h3n, if_pos h3]
      exact decayCell_none _ _
        (by simp only [harvestedField]; push_cast; omega)
        (by simp [harvestedField])
    · by_cases h9 : n + 1 < 9
      · rw [if_neg h3, if_pos h9]
        by_cases h3n : n < 3
        · -- n = 2: the harvested → stubble transition fires on day D + 3
          have hn2 : n = 2 := by omega
          subst hn2
          rw [if_pos h3n]
          rw [decayCell_toStubble _ _
            (by simp only [harvestedField]; norm_num)]
          norm_num
        · have h9n : n < 9 := by omega
          rw [if_neg h3n, if_pos h9n]
          exact decayCell_none _ _ (by simp [harvestedField])
            (by simp only [harvestedField]; push_cast; omega)
      · -- n = 8: the stubble → untilled transition fires on day D + 9
        have hn8 : n = 8 := by omega
        subst hn8
        norm_num
        rw [decayCell_toUntilled _ _ (by simp [harvestedField])
          ⟨rfl, by dsimp only; omega⟩]

end FieldStateSystem

/-- C2, counterexample.  A cell set to `harvested` on day `D = 1`, with
`processFieldDecay` invoked once on each subsequent day (days 2 through
9, i.e. through day `D + 8`), is still `stubble` on day `D + 8` — not
`untilled` as the claim states: the `stubble → untilled` guard
`day - lastStateChange > 5` first fires on day `D + 9`. -/
theorem field_decay_untilled_by_D8_counterexample :
    FieldStateSystem.getFieldState
        (FieldStateSystem.dailyDecay 1 8
          [(FieldStateSystem.fieldKey ⟨0, 0, 0⟩,
            FieldStateSystem.harvestedField ⟨0, 0, 0⟩ 1)]) ⟨0, 0, 0⟩ =
      some FieldState.stubble ∧
    some FieldState.stubble ≠ some FieldState.untilled := by
  constructor
  · rfl
  · decide

/-- C2, amended.  For every cell whose state is set to `harvested` on day
`D`, with `processFieldDecay` invoked once on every subsequent day and no
intervening player action, under constant season: the cell's state is
`stubble` by day `D + 3` and `untilled` by day `D + 9` (after 3 and 9
daily invocations respectively) — the claim's `D + 8` corrected to
`D + 9`. -/
theorem field_decay_timing (D : ℤ) (p : Vec3) :
    FieldStateSystem.getFieldState
        (FieldStateSystem.dailyDecay D 3
          [(FieldStateSystem.fieldKey p,
            FieldStateSystem.harvestedField p D)]) p =
      some FieldState.stubble ∧
    FieldStateSystem.getFieldState
        (FieldStateSystem.dailyDecay D 9
          [(FieldStateSystem.fieldKey p,
            FieldStateSystem.harvestedField p D)]) p =
      some FieldState.untilled := by
  constructor
  · rw [FieldStateSystem.dailyDecay_singleton,
      FieldStateSystem.cellIter_harvested_spec D p 3 (by norm_num)]
    simp [FieldStateSystem.getFieldState, ESMap.get]
  · rw [FieldStateSystem.dailyDecay_singleton,
      FieldStateSystem.cellIter_harvested_spec D p 9 (by norm_num)]
    simp [FieldStateSystem.getFieldState, ESMap.get]

/-! ## Crop growth theorems (C6) -/

/-- C6, counterexample.  Wheat planted on Spring day 1 of year 1, under
constant Sunny weather: on Winter day 30 of year 1 the recomputed growth
stage is 3, but on Spring day 1 of year 2 — a strictly later clock time —
`getSeasonDifference` has wrapped back to 0 and the recomputed stage
regresses to 0.  Growth is NOT monotone across a full four-season year
since planting. -/
theorem growth_monotonicity_counterexample :
    clockAbsDay 1 Season.Winter 30 < clockAbsDay 2 Season.Spring 1 ∧
    CropSystem.computedGrowthStage CropType.wheat 1 Season.Spring 30
        Season.Winter WeatherType.Sunny = 3 ∧
    CropSystem.computedGrowthStage CropType.wheat 1 Season.Spring 1
        Season.Spring WeatherType.Sunny = 0 := by
  refine ⟨by decide, ?_, ?_⟩ <;>
    simp [CropSystem.computedGrowthStage, CropSystem.calculateDaysSincePlanted,
      CropSystem.getSeasonDifference, CropSystem.stageOfProgress,
      CropSystem.getWeatherGrowthMultiplier, CropSystem.cropInfo,
      Season.idx] <;> norm_num

namespace CropSystem

theorem stageOfProgress_mono {q1 q2 : ℚ} (h : q1 ≤ q2) :
    stageOfProgress q1 ≤ stageOfProgress q2 := by
  unfold stageOfProgress
  split_ifs <;> try norm_num
  all_goals linarith

theorem growthMultiplier_pos (w : WeatherType) :
    0 < getWeatherGrowthMultiplier w := by
  cases w <;> norm_num [getWeatherGrowthMultiplier]

theorem growthTime_pos (ct : CropType) : 0 < (cropInfo ct).growthTime := by
  cases ct <;> norm_num [cropInfo]

/-- Within the first four seasons after planting (through the last day of
the third season after the planting season), `calculateDaysSincePlanted`
equals the true number of elapsed days. -/
theorem daysSincePlanted_eq_elapsed (ps : Season) (pd py : ℤ) (s : Season)
    (d y : ℤ) (hpd1 : 1 ≤ pd) (hpd2 : pd ≤ 30) (hd1 : 1 ≤ d) (hd2 : d ≤ 30)
    (he0 : 0 ≤ clockAbsDay y s d - clockAbsDay py ps pd)
    (he1 : clockAbsDay y s d - clockAbsDay py ps pd ≤ 120 - pd) :
    calculateDaysSincePlanted pd ps d s =
      clockAbsDay y s d - clockAbsDay py ps pd := by
  cases ps <;> cases s <;>
    (simp only [calculateDaysSincePlanted, getSeasonDifference, Season.idx,
       clockAbsDay] at * <;>
     simp_all <;> omega)

end CropSystem

/-- C6, amended.  Under constant weather, the growth stage recomputed by
`updateCropGrowth` is non-decreasing as the clock's absolute day advances,
as long as both observation times lie within the crop's first four-season
window (at most `120 - plantedDay` days since planting, i.e. before the
clock re-enters the planted season in a later year).  At the four-season
wrap the season-difference computation cycles back and the stage
regresses, so the claim's "across a full four-season year" part is
dropped. -/
theorem growth_monotone_within_first_cycle (ct : CropType) (w : WeatherType)
    (ps : Season) (pd py : ℤ) (s1 : Season) (d1 y1 : ℤ) (s2 : Season)
    (d2 y2 : ℤ) (hpd1 : 1 ≤ pd) (hpd2 : pd ≤ 30) (hd11 : 1 ≤ d1)
    (hd12 : d1 ≤ 30) (hd21 : 1 ≤ d2) (hd22 : d2 ≤ 30)
    (he0 : 0 ≤ clockAbsDay y1 s1 d1 - clockAbsDay py ps pd)
    (hord : clockAbsDay y1 s1 d1 ≤ clockAbsDay y2 s2 d2)
    (hwin : clockAbsDay y2 s2 d2 - clockAbsDay py ps pd ≤ 120 - pd) :
    CropSystem.computedGrowthStage ct pd ps d1 s1 w ≤
      CropSystem.computedGrowthStage ct pd ps d2 s2 w := by
  have h1 := CropSystem.daysSincePlanted_eq_elapsed ps pd py s1 d1 y1 hpd1
    hpd2 hd11 hd12 he0 (by omega)
  have h2 := CropSystem.daysSincePlanted_eq_elapsed ps pd py s2 d2 y2 hpd1
    hpd2 hd21 hd22 (by omega) hwin
  unfold CropSystem.computedGrowthStage
  rw [h1, h2]
  apply CropSystem.stageOfProgress_mono
  have hw := (CropSystem.growthMultiplier_pos w).le
  have hgt := CropSystem.growthTime_pos ct
  have hee : clockAbsDay y1 s1 d1 - clockAbsDay py ps pd ≤
      clockAbsDay y2 s2 d2 - clockAbsDay py ps pd := by omega
  exact div_le_div_of_le_of_nonneg
    (mul_le_mul_of_nonneg_right (by exact_mod_cast hee) hw) hgt.le

/-- Witness for C6 (amended): wheat planted Spring day 1 year 1, observed
on Spring day 2 and Spring day 3 of year 1 under Sunny weather. -/
theorem growth_monotone_within_first_cycle_witness :
    (1 : ℤ) ≤ 1 ∧
      CropSystem.computedGrowthStage CropType.wheat 1 Season.Spring 2
          Season.Spring WeatherType.Sunny ≤
        CropSystem.computedGrowthStage CropType.wheat 1 Season.Spring 3
          Season.Spring WeatherType.Sunny :=
  ⟨le_refl 1,
    growth_monotone_within_first_cycle CropType.wheat WeatherType.Sunny
      Season.Spring 1 1 Season.Spring 2 1 Season.Spring 3 1 (by norm_num)
      (by norm_num) (by norm_num) (by norm_num) (by norm_num) (by norm_num)
      (by decide) (by decide) (by decide)⟩

/-! ## Harvest gating (C3) -/

/-- C3: Harvest gating.  For every position and any equipment, attachment
and weather multipliers and random draw: `harvestCrop(position)` returns
`null` and leaves the registry untouched when no crop is registered at
the position's grid key or the crop's `growthStage` is less than 3;
otherwise it returns `{type, amount}` with the harvested crop's type and
`amount ≥ 1` (the yield is floored at 1 by `Math.max(1, …)`), and removes
the crop from the registry. -/
theorem harvest_gating (crops : CropSystem.CropsMap) (p : Vec3)
    (equipmentYield attachmentEfficiency : ℚ) (w : WeatherType) (r : ℚ) :
    ((ESMap.get crops (CropSystem.cropKey p) = none ∨
        (∃ c, ESMap.get crops (CropSystem.cropKey p) = some c ∧
          c.growthStage < 3)) →
      CropSystem.harvestCrop crops p equipmentYield attachmentEfficiency w r =
        (none, crops)) ∧
    (∀ c, ESMap.get crops (CropSystem.cropKey p) = some c →
      3 ≤ c.growthStage →
      ∃ amount,
        (CropSystem.harvestCrop crops p equipmentYield attachmentEfficiency
            w r).1 = some (c.type, amount) ∧
        1 ≤ amount ∧
        ESMap.get (CropSystem.harvestCrop crops p equipmentYield
            attachmentEfficiency w r).2 (CropSystem.cropKey p) = none) := by
  cases hlk : ESMap.get crops (CropSystem.cropKey p) with
  | none =>
    constructor
    · intro _
      simp [CropSystem.harvestCrop, hlk]
    · intro c hc
      exact absurd hc (by simp)
  | some c0 =>
    by_cases hst : c0.growthStage < 3
    · constructor
      · intro _
        simp [CropSystem.harvestCrop, hlk, hst]
      · intro c hc h3
        injection hc with hc
        subst hc
        omega
    · constructor
      · intro habs
        rcases habs with h | ⟨c, hc, hlt⟩
        · exact absurd h (by simp)
        · injection hc with hc
          subst hc
          omega
      · intro c hc h3
        injection hc with hc
        subst hc
        refine ⟨max 1 ⌊((⌊r * 3⌋ + 2 : ℤ) : ℚ) *
          (equipmentYield * attachmentEfficiency *
            CropSystem.getWeatherYieldMultiplier w)⌋, ?_, le_max_left _ _, ?_⟩
        · simp [CropSystem.harvestCrop, hlk, hst]
        · simp only [CropSystem.harvestCrop, hlk, hst, if_false]
          exact ESMap.get_del_self crops (CropSystem.cropKey p)

/-- Witness for C3 at a concrete input: a single mature (stage 3) wheat
crop at the origin, with neutral multipliers, Sunny weather and random
draw 0 — the harvest returns `(wheat, 2)` and empties the registry. -/
theorem harvest_gating_witness :
    (CropSystem.harvestCrop
        [((0, 0), ⟨CropType.wheat, 1, Season.Spring, 3, ⟨0, 0, 0⟩⟩)]
        ⟨0, 0, 0⟩ 1 1 WeatherType.Sunny 0).1 = some (CropType.wheat, 2) ∧
    ((1 : ℤ) ≤ 2 ∧
      ESMap.get
        (CropSystem.harvestCrop
          [((0, 0), ⟨CropType.wheat, 1, Season.Spring, 3, ⟨0, 0, 0⟩⟩)]
          ⟨0, 0, 0⟩ 1 1 WeatherType.Sunny 0).2
        (CropSystem.cropKey ⟨0, 0, 0⟩) = none) := by
  obtain ⟨amount, h1, h2, h3⟩ :=
    (harvest_gating
        [((0, 0), ⟨CropType.wheat, 1, Season.Spring, 3, ⟨0, 0, 0⟩⟩)]
        ⟨0, 0, 0⟩ 1 1 WeatherType.Sunny 0).2
      ⟨CropType.wheat, 1, Season.Spring, 3, ⟨0, 0, 0⟩⟩ (by decide)
      (by decide)
  have he : (CropSystem.harvestCrop
      [((0, 0), ⟨CropType.wheat, 1, Season.Spring, 3, ⟨0, 0, 0⟩⟩)]
      ⟨0, 0, 0⟩ 1 1 WeatherType.Sunny 0).1 = some (CropType.wheat, 2) := by
    norm_num [CropSystem.harvestCrop, ESMap.get, CropSystem.cropKey,
      CropSystem.getWeatherYieldMultiplier, List.find?]
  exact ⟨he, by norm_num, h3⟩

/-! ## Tilling precondition (C4) -/

namespace CropSystem

theorem plantCrop_getCropAt_ne (o : Bool) (crops : CropsMap) (ct : CropType)
    (p : Vec3) (d : ℤ) (sea : Season) (q : Vec3)
    (h : cropKey p ≠ cropKey q) :
    getCropAt (plantCrop o crops ct p d sea).2 q = getCropAt crops q := by
  unfold plantCrop getCropAt
  split_ifs <;> first | rfl | (dsimp only; exact ESMap.get_set_ne _ _ _ _ h)

end CropSystem

namespace FieldStateSystem

theorem getFieldState_updateFieldState_ne (fields : FieldsMap) (p2 : Vec3)
    (st : FieldState) (ct : Option CropType) (day : ℤ) (q : Vec3)
    (h : fieldKey p2 ≠ fieldKey q) :
    getFieldState (updateFieldState fields p2 st ct day) q =
      getFieldState fields q := by
  unfold updateFieldState
  cases ESMap.get fields (fieldKey p2) with
  | none =>
    unfold createField getFieldState
    rw [ESMap.get_set_ne _ _ _ _ h]
  | some fd =>
    unfold getFieldState
    rw [ESMap.get_set_ne _ _ _ _ h]

end FieldStateSystem

namespace InputManager

theorem plantAtPosition_preserves (plots : List LandPlot) (ct : CropType)
    (day : ℤ) (season : Season) (p q : Vec3) (s : PlantState)
    (hq : FieldStateSystem.getFieldState s.fields q ≠
      some FieldState.tilled) :
    FieldStateSystem.getFieldState
        (plantAtPosition plots ct day season s p).fields q ≠
      some FieldState.tilled ∧
    CropSystem.getCropAt (plantAtPosition plots ct day season s p).crops q =
      CropSystem.getCropAt s.crops q := by
  simp only [plantAtPosition]
  by_cases h1 : FieldStateSystem.getFieldState s.fields p ≠
      some FieldState.tilled
  · rw [if_pos h1]
    exact ⟨hq, rfl⟩
  · rw [if_neg h1]
    push_neg at h1
    have hkey : FieldStateSystem.fieldKey p ≠ FieldStateSystem.fieldKey q := by
      intro he
      apply hq
      unfold FieldStateSystem.getFieldState at h1 ⊢
      rw [← he]
      exact h1
    have hckey : CropSystem.cropKey p ≠ CropSystem.cropKey q := hkey
    by_cases h2 : ((CropSystem.getCropAt s.crops p).isNone &&
        FarmExpansionSystem.isPositionOnOwnedLand plots p) = true
    · rw [if_pos h2]
      by_cases h3 : (EconomySystem.buySeeds s.econ ct 1).1 = true
      · rw [if_pos h3]
        by_cases h4 : (CropSystem.plantCrop
            (FarmExpansionSystem.isPositionOnOwnedLand plots p) s.crops ct p
            day season).1 = true
        · rw [if_pos h4]
          constructor
          · show FieldStateSystem.getFieldState
              (FieldStateSystem.updateFieldState s.fields p
                FieldState.planted (some ct) day) q ≠ some FieldState.tilled
            rw [FieldStateSystem.getFieldState_updateFieldState_ne _ _ _ _ _
              _ hkey]
            exact hq
          · exact CropSystem.plantCrop_getCropAt_ne _ _ _ _ _ _ _ hckey
        · rw [if_neg h4]
          exact ⟨hq, rfl⟩
      · rw [if_neg h3]
        exact ⟨hq, rfl⟩
    · rw [if_neg h2]
      exact ⟨hq, rfl⟩

theorem plantLoop_preserves (plots : List LandPlot) (ct : CropType) (day : ℤ)
    (season : Season) (q : Vec3) :
    ∀ (positions : List Vec3) (s : PlantState),
      FieldStateSystem.getFieldState s.fields q ≠ some FieldState.tilled →
      FieldStateSystem.getFieldState
          (positions.foldl (plantAtPosition plots ct day season) s).fields
          q ≠ some FieldState.tilled ∧
      CropSystem.getCropAt
          (positions.foldl (plantAtPosition plots ct day season) s).crops
          q = CropSystem.getCropAt s.crops q := by
  intro positions
  induction positions with
  | nil => intro s hq; exact ⟨hq, rfl⟩
  | cons p rest ih =>
    intro s hq
    simp only [List.foldl_cons]
    obtain ⟨hf, hc⟩ := plantAtPosition_preserves plots ct day season p q s hq
    obtain ⟨hf2, hc2⟩ := ih _ hf
    exact ⟨hf2, hc2.trans hc⟩

end InputManager

/-- C4: Tilling precondition.  For every cell `q` whose Field-State is
not `tilled`, the plant command never creates a crop at `q` — the crop
registry at `q`'s key is exactly what it was — regardless of cash, land
ownership, or working-area size (the per-position loop skips every cell
whose state is not `tilled` before buying seeds or planting). -/
theorem plant_never_succeeds_on_untilled (plots : List LandPlot)
    (ct : CropType) (day : ℤ) (season : Season) (s : PlantState)
    (center q : Vec3) (workingArea : ℕ)
    (hq : FieldStateSystem.getFieldState s.fields q ≠
      some FieldState.tilled) :
    CropSystem.getCropAt
        (InputManager.plantCommand plots ct day season s center
          workingArea).crops q =
      CropSystem.getCropAt s.crops q := by
  simp only [InputManager.plantCommand]
  split_ifs with h1 h2
  · rfl
  · exact (InputManager.plantLoop_preserves plots ct day season q _ s hq).2
  · rfl

/-- Witness for C4 at a concrete input: no cell is tilled in the empty
field registry, so planting wheat at the origin changes nothing. -/
theorem plant_never_succeeds_on_untilled_witness :
    FieldStateSystem.getFieldState [] ⟨0, 0, 0⟩ ≠ some FieldState.tilled ∧
    CropSystem.getCropAt
        (InputManager.plantCommand FarmExpansionSystem.initialPlots
          CropType.wheat 1 Season.Spring
          ⟨[], [], initialEconState⟩ ⟨0, 0, 0⟩ 1).crops ⟨0, 0, 0⟩ =
      CropSystem.getCropAt ([] : CropSystem.CropsMap) ⟨0, 0, 0⟩ :=
  ⟨by decide,
    plant_never_succeeds_on_untilled FarmExpansionSystem.initialPlots
      CropType.wheat 1 Season.Spring ⟨[], [], initialEconState⟩ ⟨0, 0, 0⟩
      ⟨0, 0, 0⟩ 1 (by decide)⟩

/-! ## Cash non-negativity (C5) -/

namespace EconomySystem

theorem setMoney_nonneg (s : State) (a : ℤ) : 0 ≤ (setMoney s a).money := by
  simp [setMoney]

theorem setMoney_marketPrices (s : State) (a : ℤ) :
    (setMoney s a).marketPrices = s.marketPrices := rfl

theorem buySeeds_preserves (s : State) (ct : CropType) (q : ℤ)
    (h0 : 0 ≤ s.money) (hp : ∀ t, 0 ≤ s.marketPrices t) :
    0 ≤ (buySeeds s ct q).2.money ∧
      ∀ t, 0 ≤ (buySeeds s ct q).2.marketPrices t := by
  simp only [buySeeds]
  split_ifs with h
  · exact ⟨by dsimp only; omega, hp⟩
  · exact ⟨h0, hp⟩

theorem sellCrop_preserves (s : State) (ct : CropType) (q : ℤ) (hq : 0 ≤ q)
    (h0 : 0 ≤ s.money) (hp : ∀ t, 0 ≤ s.marketPrices t) :
    0 ≤ (sellCrop s ct q).2.money ∧
      ∀ t, 0 ≤ (sellCrop s ct q).2.marketPrices t := by
  simp only [sellCrop]
  split_ifs with h
  · have hrev := mul_nonneg (hp ct) hq
    exact ⟨by dsimp only; omega, hp⟩
  · exact ⟨h0, hp⟩

theorem sellAllOfType_preserves (s : State) (ct : CropType)
    (h0 : 0 ≤ s.money) (hp : ∀ t, 0 ≤ s.marketPrices t) :
    0 ≤ (sellAllOfType s ct).2.money ∧
      ∀ t, 0 ≤ (sellAllOfType s ct).2.marketPrices t := by
  simp only [sellAllOfType]
  split_ifs with h
  · exact sellCrop_preserves s ct (s.inventory ct) (le_of_lt h) h0 hp
  · exact ⟨h0, hp⟩

theorem sellAllCrops_foldl_preserves (l : List CropType) :
    ∀ (acc : (CropType → ℤ) × State), 0 ≤ acc.2.money →
      (∀ t, 0 ≤ acc.2.marketPrices t) →
      0 ≤ (l.foldl (fun (acc : (CropType → ℤ) × State) ct =>
          ((fun t => if t = ct then (sellAllOfType acc.2 ct).1 else acc.1 t),
            (sellAllOfType acc.2 ct).2)) acc).2.money ∧
      ∀ t, 0 ≤ (l.foldl (fun (acc : (CropType → ℤ) × State) ct =>
          ((fun t => if t = ct then (sellAllOfType acc.2 ct).1 else acc.1 t),
            (sellAllOfType acc.2 ct).2)) acc).2.marketPrices t := by
  induction l with
  | nil => intro acc h0 hp; exact ⟨h0, hp⟩
  | cons ct rest ih =>
    intro acc h0 hp
    simp only [List.foldl_cons]
    obtain ⟨h02, hp2⟩ := sellAllOfType_preserves acc.2 ct h0 hp
    exact ih _ h02 hp2

theorem sellAllCrops_preserves (s : State) (h0 : 0 ≤ s.money)
    (hp : ∀ t, 0 ≤ s.marketPrices t) :
    0 ≤ (sellAllCrops s).2.money ∧
      ∀ t, 0 ≤ (sellAllCrops s).2.marketPrices t := by
  unfold sellAllCrops
  exact sellAllCrops_foldl_preserves cropTypesList (fun _ => 0, s) h0 hp

end EconomySystem

theorem stepCmd_preserves (s : FarmState) (c : EconomyCmd)
    (h0 : 0 ≤ s.econ.money) (hp : ∀ t, 0 ≤ s.econ.marketPrices t) :
    0 ≤ (stepCmd s c).econ.money ∧
      ∀ t, 0 ≤ (stepCmd s c).econ.marketPrices t := by
  cases c with
  | buySeeds ct q => exact EconomySystem.buySeeds_preserves s.econ ct q h0 hp
  | sellCrop ct q =>
    exact EconomySystem.sellCrop_preserves s.econ ct q (by positivity) h0 hp
  | sellAllCrops => exact EconomySystem.sellAllCrops_preserves s.econ h0 hp
  | setMoney a =>
    exact ⟨EconomySystem.setMoney_nonneg s.econ a, hp⟩
  | purchaseAnimal ty pos =>
    simp only [stepCmd, LivestockSystem.purchaseAnimal]
    split_ifs <;>
      first
        | exact ⟨h0, hp⟩
        | exact ⟨EconomySystem.setMoney_nonneg _ _, hp⟩
  | feedAnimals =>
    simp only [stepCmd, LivestockSystem.feedAnimals]
    split_ifs <;>
      first
        | exact ⟨h0, hp⟩
        | exact ⟨EconomySystem.setMoney_nonneg _ _, hp⟩
  | collectProducts rand =>
    simp only [stepCmd, LivestockSystem.collectProducts]
    split_ifs <;>
      first
        | exact ⟨h0, hp⟩
        | exact ⟨EconomySystem.setMoney_nonneg _ _, hp⟩

/-- C5: Cash non-negativity.  For every sequence of the commands
`buySeeds`, `sellCrop`, `sellAllCrops`, `setMoney`, `purchaseAnimal`,
`feedAnimals` and `collectProducts`, applied in any order from any state
with a non-negative balance and non-negative market prices (both hold in
every reachable state), `getMoney() ≥ 0` holds after every step —
including `feedAnimals` calls whose aggregated upkeep exceeds the balance
each per-animal affordability check was made against, because the single
aggregate deduction goes through `setMoney`, which clamps at 0. -/
theorem cash_never_negative (s : FarmState) (cmds : List EconomyCmd)
    (h0 : 0 ≤ s.econ.money) (hp : ∀ t, 0 ≤ s.econ.marketPrices t) :
    0 ≤ (runCmds s cmds).econ.money := by
  unfold runCmds
  induction cmds generalizing s with
  | nil => exact h0
  | cons c rest ih =>
    simp only [List.foldl_cons]
    obtain ⟨h02, hp2⟩ := stepCmd_preserves s c h0 hp
    exact ih (stepCmd s c) h02 hp2

/-- Witness for C5 at a concrete input: from the initial economy, drain
the balance with `setMoney 0` and then try to buy seeds and feed — money
stays non-negative. -/
theorem cash_never_negative_witness :
    (0 : ℤ) ≤ initialEconState.money ∧
      0 ≤ (runCmds
          ⟨initialEconState, [], 1, FarmExpansionSystem.initialPlots, 1⟩
          [EconomyCmd.setMoney 0, EconomyCmd.buySeeds CropType.wheat 1,
            EconomyCmd.feedAnimals]).econ.money :=
  ⟨by norm_num [initialEconState],
    cash_never_negative
      ⟨initialEconState, [], 1, FarmExpansionSystem.initialPlots, 1⟩
      [EconomyCmd.setMoney 0, EconomyCmd.buySeeds CropType.wheat 1,
        EconomyCmd.feedAnimals]
      (by norm_num [initialEconState])
      (by
        intro t
        cases t <;> norm_num [initialEconState, EconomySystem.basePrices])⟩

/-! ## Market price re-randomization (C8) -/

namespace EconomySystem

theorem jsRound_price_bounds (b : ℤ) (hb : 2 ≤ b) (r : ℚ) (hr0 : 0 ≤ r)
    (hr1 : r < 1) :
    3 * b ≤ 5 * jsRound ((b : ℚ) * (1 + (r - 1/2) * (4/10))) ∧
      5 * jsRound ((b : ℚ) * (1 + (r - 1/2) * (4/10))) ≤ 7 * b := by
  have hb0 : (0 : ℚ) ≤ (b : ℚ) := by exact_mod_cast (by omega : (0 : ℤ) ≤ b)
  have hlo : (4 * (b : ℚ)) / 5 ≤ (b : ℚ) * (1 + (r - 1/2) * (4/10)) := by
    nlinarith [mul_nonneg hb0 hr0]
  have hhi : (b : ℚ) * (1 + (r - 1/2) * (4/10)) ≤ (6 * (b : ℚ)) / 5 := by
    nlinarith [mul_nonneg hb0 (by linarith : (0 : ℚ) ≤ 1 - r)]
  have h1 : (jsRound ((b : ℚ) * (1 + (r - 1/2) * (4/10))) : ℚ) ≤
      (b : ℚ) * (1 + (r - 1/2) * (4/10)) + 1/2 := by
    unfold jsRound
    exact_mod_cast Int.floor_le _
  have h2 : (b : ℚ) * (1 + (r - 1/2) * (4/10)) + 1/2 - 1 <
      (jsRound ((b : ℚ) * (1 + (r - 1/2) * (4/10))) : ℚ) := by
    unfold jsRound
    exact_mod_cast Int.sub_one_lt_floor _
  constructor
  · have hq : (4 * (b : ℚ) - 3 : ℚ) <
        (5 * jsRound ((b : ℚ) * (1 + (r - 1/2) * (4/10))) : ℚ) := by
      push_cast
      linarith
    have hz : 4 * b - 3 <
        5 * jsRound ((b : ℚ) * (1 + (r - 1/2) * (4/10))) := by
      exact_mod_cast hq
    omega
  · have hz2 : (5 * jsRound ((b : ℚ) * (1 + (r - 1/2) * (4/10))) : ℚ) <
        6 * (b : ℚ) + 3 := by
      push_cast
      linarith
    have hz3 : 5 * jsRound ((b : ℚ) * (1 + (r - 1/2) * (4/10))) <
        6 * b + 3 := by
      exact_mod_cast hz2
    omega

theorem basePrices_ge_two (t : CropType) : 2 ≤ basePrices t := by
  cases t <;> norm_num [basePrices]

end EconomySystem

/-- C8: Market price re-randomization.  Each `updateMarketPrices` call
sets every crop's price to `round(basePrice × (1 + u))` with
`u = (r − 0.5) × 0.4` for that crop's random draw `r ∈ [0, 1)` and the
fixed base table `{wheat: 8, corn: 12, potato: 10, carrot: 6}`;
consequently, starting from any price table within ±40% of the base
(as the initial table is), after any number of `updateMarketPrices`
calls every crop price stays within ±40% of its fixed base price
(`3·base ≤ 5·price ∧ 5·price ≤ 7·base`). -/
theorem market_price_rerandomization (s0 : EconomySystem.State)
    (draws : List (CropType → ℚ))
    (hdraws : ∀ f ∈ draws, ∀ t, 0 ≤ f t ∧ f t < 1)
    (h0 : ∀ t, 3 * EconomySystem.basePrices t ≤ 5 * s0.marketPrices t ∧
      5 * s0.marketPrices t ≤ 7 * EconomySystem.basePrices t) :
    (∀ (s : EconomySystem.State) (f : CropType → ℚ) (t : CropType),
      (EconomySystem.updateMarketPrices s f).marketPrices t =
        jsRound ((EconomySystem.basePrices t : ℚ) *
          (1 + (f t - 1/2) * (4/10)))) ∧
    ∀ t, 3 * EconomySystem.basePrices t ≤
        5 * (draws.foldl EconomySystem.updateMarketPrices s0).marketPrices t ∧
      5 * (draws.foldl EconomySystem.updateMarketPrices s0).marketPrices t ≤
        7 * EconomySystem.basePrices t := by
  refine ⟨fun s f t => rfl, ?_⟩
  induction draws generalizing s0 with
  | nil => exact h0
  | cons f rest ih =>
    simp only [List.foldl_cons]
    refine ih (EconomySystem.updateMarketPrices s0 f)
      (fun g hg => hdraws g (List.mem_cons_of_mem f hg)) ?_
    intro t
    obtain ⟨hr0, hr1⟩ := hdraws f (List.mem_cons_self f rest) t
    exact EconomySystem.jsRound_price_bounds (EconomySystem.basePrices t)
      (EconomySystem.basePrices_ge_two t) (f t) hr0 hr1

/-- Witness for C8 at a concrete input: one update with all draws 0,
checked for wheat. -/
theorem market_price_rerandomization_witness :
    3 * EconomySystem.basePrices CropType.wheat ≤
        5 * (([fun _ => 0] : List (CropType → ℚ)).foldl
          EconomySystem.updateMarketPrices initialEconState).marketPrices
          CropType.wheat ∧
      5 * (([fun _ => 0] : List (CropType → ℚ)).foldl
          EconomySystem.updateMarketPrices initialEconState).marketPrices
          CropType.wheat ≤ 7 * EconomySystem.basePrices CropType.wheat :=
  (market_price_rerandomization initialEconState [fun _ => 0]
      (by
        intro f hf t
        simp only [List.mem_singleton] at hf
        subst hf
        norm_num)
      (by
        intro t
        cases t <;>
          norm_num [initialEconState, EconomySystem.basePrices])).2
    CropType.wheat

/-! ## Livestock ageing (C9) -/

/-- C9: the ageing code contradicts the claimed (and documented)
"elapsed days since creation" semantics.  An animal purchased on Winter
day 1 (with `age = 0`, zero days elapsed) gets `age = 85` from the very
first `updateAnimalAge` tick, because the code assigns the absolute
season-offset day `day + 84` (offsets 0/28/56/84 — not even multiples of
the 30-day season) instead of a creation-relative day count; the Crop
Registry's day counting for the same instant yields 0 elapsed days. -/
theorem livestock_aging_failing_input :
    (LivestockSystem.updateAnimalAge
        { id := 1, type := AnimalType.chicken, position := ⟨0, 0, 0⟩,
          age := 0, happiness := 100, health := 100, lastFed := 1 }
        { hour := 6, minute := 0, day := 1, season := Season.Winter,
          year := 1 }).age = 85 ∧
    CropSystem.calculateDaysSincePlanted 1 Season.Winter 1 Season.Winter =
      0 := by
  constructor <;> decide

/-! ## Harvest yield lost on storage overflow (C10) -/

namespace CropSystem

theorem harvestCrop_some_snd (crops : CropsMap) (p : Vec3)
    (eqY attE : ℚ) (w : WeatherType) (r : ℚ) (result : CropType × ℤ)
    (hres : (harvestCrop crops p eqY attE w r).1 = some result) :
    (harvestCrop crops p eqY attE w r).2 =
      ESMap.del crops (cropKey p) := by
  unfold harvestCrop at hres ⊢
  split at hres
  next heq => simp at hres
  next crop heq =>
    by_cases hst : crop.growthStage < 3
    · rw [if_pos hst] at hres
      simp at hres
    · simp [heq, hst]

end CropSystem

/-- C10: Harvest yield is lost on storage overflow.  Whenever the harvest
command's `harvestCrop` succeeds (some `result` is returned — the crop is
already removed from the registry and the yield fixed) and the yield does
not fit the remaining storage (`capacity < used + amount`), the command
reports failure (`some false`), the crop stays destroyed, only
`max 0 (capacity − used)` units are stored, and the cash balance is
untouched — no compensating refund or rollback. -/
theorem harvest_overflow_loses_yield (s : PlantState) (p : Vec3)
    (eqY attE : ℚ) (w : WeatherType) (r : ℚ) (equipCap buildCap day : ℤ)
    (result : CropType × ℤ)
    (hres : (CropSystem.harvestCrop s.crops p eqY attE w r).1 = some result)
    (hover : EconomySystem.getStorageCapacity equipCap buildCap <
      EconomySystem.getTotalInventoryCount s.econ + result.2) :
    (InputManager.harvestCommand s p eqY attE w r
        (EconomySystem.getStorageCapacity equipCap buildCap) day).2 =
      some false ∧
    ESMap.get (InputManager.harvestCommand s p eqY attE w r
        (EconomySystem.getStorageCapacity equipCap buildCap) day).1.crops
      (CropSystem.cropKey p) = none ∧
    (InputManager.harvestCommand s p eqY attE w r
        (EconomySystem.getStorageCapacity equipCap buildCap)
        day).1.econ.money = s.econ.money ∧
    (InputManager.harvestCommand s p eqY attE w r
        (EconomySystem.getStorageCapacity equipCap buildCap)
        day).1.econ.inventory result.1 =
      s.econ.inventory result.1 +
        max 0 (EconomySystem.getStorageCapacity equipCap buildCap -
          EconomySystem.getTotalInventoryCount s.econ) := by
  have hsnd := CropSystem.harvestCrop_some_snd s.crops p eqY attE w r result
    hres
  simp only [InputManager.harvestCommand, hres, hsnd]
  simp only [EconomySystem.addToInventory]
  rw [if_pos hover]
  by_cases havail : 0 < EconomySystem.getStorageCapacity equipCap buildCap -
      EconomySystem.getTotalInventoryCount s.econ
  · rw [if_pos havail]
    refine ⟨rfl, ?_, rfl, ?_⟩
    · exact ESMap.get_del_self s.crops (CropSystem.cropKey p)
    · dsimp only
      rw [if_pos rfl, max_eq_right (le_of_lt havail)]
  · rw [if_neg havail]
    refine ⟨rfl, ?_, rfl, ?_⟩
    · exact ESMap.get_del_self s.crops (CropSystem.cropKey p)
    · rw [max_eq_left (by omega), add_zero]

/-- Witness for C10 at a concrete input: a mature wheat crop harvested
(yield 2) into an economy whose 4 stored units already sit at the
capacity of 4 (equipment and building contributions −496 each… the live
capacity argument is `500 + equipCap + buildCap`; here `equipCap = -250`,
`buildCap = -246`, giving capacity 4): the crop is gone, nothing more is
stored, the flag is `false`, the balance is unchanged. -/
theorem harvest_overflow_loses_yield_witness :
    (CropSystem.harvestCrop
        [((0, 0), ⟨CropType.wheat, 1, Season.Spring, 3, ⟨0, 0, 0⟩⟩)]
        ⟨0, 0, 0⟩ 1 1 WeatherType.Sunny 0).1 =
      some (CropType.wheat, 2) ∧
    EconomySystem.getStorageCapacity (-250) (-246) <
      EconomySystem.getTotalInventoryCount
        { money := 7, inventory := fun _ => 1,
          marketPrices := EconomySystem.basePrices,
          lastPriceUpdate := 0 } + 2 ∧
    (InputManager.harvestCommand
        ⟨[((0, 0), ⟨CropType.wheat, 1, Season.Spring, 3, ⟨0, 0, 0⟩⟩)], [],
          { money := 7, inventory := fun _ => 1,
            marketPrices := EconomySystem.basePrices,
            lastPriceUpdate := 0 }⟩
        ⟨0, 0, 0⟩ 1 1 WeatherType.Sunny 0
        (EconomySystem.getStorageCapacity (-250) (-246)) 1).2 =
      some false ∧
    (InputManager.harvestCommand
        ⟨[((0, 0), ⟨CropType.wheat, 1, Season.Spring, 3, ⟨0, 0, 0⟩⟩)], [],
          { money := 7, inventory := fun _ => 1,
            marketPrices := EconomySystem.basePrices,
            lastPriceUpdate := 0 }⟩
        ⟨0, 0, 0⟩ 1 1 WeatherType.Sunny 0
        (EconomySystem.getStorageCapacity (-250) (-246)) 1).1.econ.money =
      7 := by
  have hres : (CropSystem.harvestCrop
      [((0, 0), ⟨CropType.wheat, 1, Season.Spring, 3, ⟨0, 0, 0⟩⟩)]
      ⟨0, 0, 0⟩ 1 1 WeatherType.Sunny 0).1 = some (CropType.wheat, 2) := by
    norm_num [CropSystem.harvestCrop, ESMap.get, CropSystem.cropKey,
      CropSystem.getWeatherYieldMultiplier, List.find?]
  have hover : EconomySystem.getStorageCapacity (-250) (-246) <
      EconomySystem.getTotalInventoryCount
        { money := 7, inventory := fun _ => 1,
          marketPrices := EconomySystem.basePrices,
          lastPriceUpdate := 0 } + 2 := by
    norm_num [EconomySystem.getStorageCapacity,
      EconomySystem.getTotalInventoryCount, cropTypesList]
  obtain ⟨hflag, hgone, hmoney, hinv⟩ := harvest_overflow_loses_yield
    ⟨[((0, 0), ⟨CropType.wheat, 1, Season.Spring, 3, ⟨0, 0, 0⟩⟩)], [],
      { money := 7, inventory := fun _ => 1,
        marketPrices := EconomySystem.basePrices, lastPriceUpdate := 0 }⟩
    ⟨0, 0, 0⟩ 1 1 WeatherType.Sunny 0 (-250) (-246) 1 (CropType.wheat, 2)
    hres hover
  exact ⟨hres, hover, hflag, hmoney⟩

/-! ## Save/load round trip (C1) -/

namespace CropSystem

theorem crops_roundtrip (crops : CropsMap)
    (hkeys : ∀ e ∈ crops, e.1 = cropKey e.2.position)
    (hnd : (ESMap.keys crops).Nodup) :
    loadSaveData (getSaveData crops) = crops := by
  unfold loadSaveData getSaveData
  rw [List.foldl_map]
  exact ESMap.rebuild (fun c => cropKey c.position) crops hkeys hnd

end CropSystem

namespace FieldStateSystem

theorem fields_roundtrip (fields : FieldsMap)
    (hkeys : ∀ e ∈ fields, e.1 = fieldKey e.2.position)
    (hnd : (ESMap.keys fields).Nodup) :
    loadSaveData (getSaveData fields) = fields := by
  unfold loadSaveData getSaveData
  rw [List.foldl_map]
  exact ESMap.rebuild (fun f => fieldKey f.position) fields hkeys hnd

end FieldStateSystem

namespace LivestockSystem

theorem animals_roundtrip (animals : AnimalsMap)
    (hkeys : ∀ e ∈ animals, e.1 = e.2.id)
    (hnd : (ESMap.keys animals).Nodup) :
    loadSaveData (getSaveData animals) = animals := by
  unfold loadSaveData getSaveData
  rw [List.foldl_map]
  exact ESMap.rebuild (fun a => a.id) animals hkeys hnd

end LivestockSystem

namespace BuildingSystem

theorem buildings_roundtrip (placedBuildings : List PlacedBuilding) :
    loadSaveData (getSaveData placedBuildings) = placedBuildings := by
  unfold loadSaveData getSaveData
  rw [List.map_map]
  exact List.map_id placedBuildings

end BuildingSystem

namespace EconomySystem

theorem econ_roundtrip (s : State) (hm : s.money ≠ 0) :
    loadSaveData (getSaveData s) = s := by
  unfold loadSaveData getSaveData jsOr jsOrRat
  cases s with
  | mk money inv mp lpu =>
    simp only at hm ⊢
    congr 1
    · exact if_neg hm
    · split_ifs with h
      · exact h.symm
      · rfl

end EconomySystem

namespace FarmExpansionSystem

theorem contains_owned_ids (plots : List LandPlot) (p : LandPlot)
    (hp : p ∈ plots) (hnd : (plots.map LandPlot.id).Nodup) :
    ((plots.filter (fun q => q.isOwned)).map (fun q => q.id)).contains p.id =
      p.isOwned := by
  cases ho : p.isOwned
  · rw [Bool.eq_false_iff]
    intro hcontains
    rw [List.contains_eq_any_beq] at hcontains
    simp only [List.any_eq_true, List.mem_map, List.mem_filter] at hcontains
    obtain ⟨id2, ⟨q, ⟨hqmem, hqown⟩, hqid⟩, hbeq⟩ := hcontains
    have hqid2 : q.id = p.id := by
      rw [hqid]
      exact (beq_iff_eq.mp hbeq).symm
    have hqp : q = p :=
      List.inj_on_of_nodup_map hnd hqmem hp hqid2
    rw [hqp] at hqown
    rw [ho] at hqown
    exact Bool.false_ne_true hqown
  · rw [List.contains_eq_any_beq]
    simp only [List.any_eq_true, List.mem_map, List.mem_filter]
    exact ⟨p.id, ⟨p, ⟨hp, ho⟩, rfl⟩, beq_self_eq_true p.id⟩

end FarmExpansionSystem

theorem FarmExpansionSystem.plots_roundtrip (plots : List LandPlot)
    (hnd : (plots.map LandPlot.id).Nodup)
    (hstarter : ∀ p ∈ plots, p.id = "starter_plot" → p.isOwned = true) :
    FarmExpansionSystem.loadSaveData plots
      (FarmExpansionSystem.getSaveData plots) = plots := by
  unfold FarmExpansionSystem.loadSaveData FarmExpansionSystem.getSaveData
  refine (List.map_congr_left ?_).trans (List.map_id' plots)
  intro p hp
  have hc := FarmExpansionSystem.contains_owned_ids plots p hp hnd
  have hst := hstarter p hp
  cases p with
  | mk i pr o b =>
    dsimp only at hc hst ⊢
    by_cases hid : i = "starter_plot"
    · rw [if_pos hid]
      rw [hst hid]
    · rw [if_neg hid, hc]

/-- The original C1 claim fails at a cash balance of 0: for a
well-formed fresh state whose money is 0, `loadGame(saveGame(state))`
reports money 100000, because `loadSaveData` restores the balance with
`saveData.money || 100000` and `0` is falsy in JavaScript. -/
theorem save_load_money_zero_counterexample :
    GameState.wf
      ⟨{ money := 0, inventory := fun _ => 0,
         marketPrices := EconomySystem.basePrices, lastPriceUpdate := 0 },
       [], [], FarmExpansionSystem.initialPlots, [], [], 1⟩ ∧
    EconomySystem.getMoney
      (⟨{ money := 0, inventory := fun _ => 0,
          marketPrices := EconomySystem.basePrices, lastPriceUpdate := 0 },
        [], [], FarmExpansionSystem.initialPlots, [], [], 1⟩ : GameState).econ
      = 0 ∧
    EconomySystem.getMoney
      (Game.loadGame
        ⟨{ money := 0, inventory := fun _ => 0,
           marketPrices := EconomySystem.basePrices, lastPriceUpdate := 0 },
         [], [], FarmExpansionSystem.initialPlots, [], [], 1⟩
        (Game.saveGame
          ⟨{ money := 0, inventory := fun _ => 0,
             marketPrices := EconomySystem.basePrices, lastPriceUpdate := 0 },
           [], [], FarmExpansionSystem.initialPlots, [], [], 1⟩)).econ
      = 100000 := by
  refine ⟨⟨?_, ?_, ?_, ?_, ?_, ?_, ?_, ?_⟩, rfl, rfl⟩
  · simp [ESMap.keys]
  · simp
  · simp [ESMap.keys]
  · simp
  · simp [ESMap.keys]
  · simp
  · decide
  · decide

/-- C1 (amended: the cash balance must be nonzero; a balance of 0 is
restored as 100000).  For every well-formed game state with nonzero
money, saving through each registry's `getSaveData` and reloading
through its `loadSaveData` preserves every externally observable
getter: the money, the inventory of every crop type, the crop list, the
field state of every cell, the plot list, the placed buildings, and the
animal list. -/
theorem save_load_round_trip (s : GameState) (hwf : s.wf)
    (hm : s.econ.money ≠ 0) :
    EconomySystem.getMoney (Game.loadGame s (Game.saveGame s)).econ =
      EconomySystem.getMoney s.econ ∧
    (∀ t, (Game.loadGame s (Game.saveGame s)).econ.inventory t =
      s.econ.inventory t) ∧
    CropSystem.getAllCrops (Game.loadGame s (Game.saveGame s)).crops =
      CropSystem.getAllCrops s.crops ∧
    (∀ p, FieldStateSystem.getFieldState
        (Game.loadGame s (Game.saveGame s)).fields p =
      FieldStateSystem.getFieldState s.fields p) ∧
    (Game.loadGame s (Game.saveGame s)).plots = s.plots ∧
    (Game.loadGame s (Game.saveGame s)).buildings = s.buildings ∧
    ESMap.values (Game.loadGame s (Game.saveGame s)).animals =
      ESMap.values s.animals := by
  simp only [GameState.wf] at hwf
  obtain ⟨hcnd, hck, hfnd, hfk, hand, hak, hpnd, hst⟩ := hwf
  have hecon : (Game.loadGame s (Game.saveGame s)).econ = s.econ :=
    EconomySystem.econ_roundtrip s.econ hm
  have hcrops : (Game.loadGame s (Game.saveGame s)).crops = s.crops :=
    CropSystem.crops_roundtrip s.crops hck hcnd
  have hfields : (Game.loadGame s (Game.saveGame s)).fields = s.fields :=
    FieldStateSystem.fields_roundtrip s.fields hfk hfnd
  have hplots : (Game.loadGame s (Game.saveGame s)).plots = s.plots :=
    FarmExpansionSystem.plots_roundtrip s.plots hpnd hst
  have hbuild :
      (Game.loadGame s (Game.saveGame s)).buildings = s.buildings :=
    BuildingSystem.buildings_roundtrip s.buildings
  have hanim : (Game.loadGame s (Game.saveGame s)).animals = s.animals :=
    LivestockSystem.animals_roundtrip s.animals hak hand
  exact ⟨by rw [hecon], fun t => by rw [hecon], by rw [hcrops],
    fun p => by rw [hfields], hplots, hbuild, by rw [hanim]⟩

/-- Witness for C1: the fresh state (money 100000, empty registries,
the initial plots) round-trips. -/
theorem save_load_round_trip_witness :
    EconomySystem.getMoney
      (Game.loadGame
        ⟨initialEconState, [], [], FarmExpansionSystem.initialPlots, [], [], 1⟩
        (Game.saveGame
          ⟨initialEconState, [], [], FarmExpansionSystem.initialPlots,
           [], [], 1⟩)).econ =
      EconomySystem.getMoney initialEconState ∧
    (Game.loadGame
        ⟨initialEconState, [], [], FarmExpansionSystem.initialPlots, [], [], 1⟩
        (Game.saveGame
          ⟨initialEconState, [], [], FarmExpansionSystem.initialPlots,
           [], [], 1⟩)).plots = FarmExpansionSystem.initialPlots := by
  have h := save_load_round_trip
    ⟨initialEconState, [], [], FarmExpansionSystem.initialPlots, [], [], 1⟩
    ⟨by simp [ESMap.keys], by simp, by simp [ESMap.keys], by simp,
     by simp [ESMap.keys], by simp, by decide, by decide⟩
    (by norm_num [initialEconState])
  exact ⟨h.1, h.2.2.2.2.1⟩
